import Mathlib

/-!
Verification of the Ledger Consistency & Reconciliation Engine of the
personal-finance-tracker repository.

The definitions below are a shallow embedding of the Python source:

* `src/models.py` — `BudgetCategory.update_available_amount`,
  `AccountReconciliation.calculate_balances`;
* `src/api/transactions.py` — `create_transaction`, `update_transaction`,
  `delete_transaction`, `create_bulk_transactions`;
* `src/api/budget.py` / `src/services/budget_service.py` — `transfer_budget`;
* `src/services/recurring_service.py` — `get_next_occurrence_date`,
  `should_create_occurrence`, `create_recurring_occurrence`,
  `process_all_recurring_transactions`;
* `src/api/reconciliation.py` — `toggle_reconciliation_item`.

Monetary amounts are `Decimal(10, 2)` values in the source; every operation
verified here only adds, subtracts and compares them, so they are embedded
exactly as integer numbers of cents (`Money := ℤ`).

Database rows live in Lean lists.  `id` columns are primary keys, hence
globally unique; a SQLAlchemy `query.get(pk)` / `filter_by(id=..)....first()`
followed by a mutation of the returned row is embedded as a `List.map` that
rewrites the row(s) with that id — on states with unique ids (all states the
program can produce) the two coincide.  A handler that returns an error
before `db.session.commit()` leaves the durable state unchanged; such paths
are embedded as `Except.error` with the state unaltered.
-/

namespace PFT

/-- Monetary amount in cents (`Decimal(10,2)` of the source, scaled by 100). -/
abbrev Money := ℤ

/-- `transaction_type` column: `income`, `expense` or `transfer`. -/
inductive TxType where
  | income
  | expense
  | transfer
deriving DecidableEq, Repr

/-- `recurring_period` values understood by `RecurringTransactionService.period_mapping`. -/
inductive Period where
  | daily
  | weekly
  | biweekly
  | monthly
  | quarterly
  | yearly
deriving DecidableEq, Repr, Fintype

/-- The four period strings accepted by the HTTP validation in
`src/api/transactions.py` (`['daily', 'weekly', 'monthly', 'yearly']`). -/
def apiPeriodOk : Period → Bool
  | .daily => true
  | .weekly => true
  | .monthly => true
  | .yearly => true
  | _ => false

/-- A calendar date, as Python's `datetime.date`. -/
structure Date where
  year : Nat
  month : Nat
  day : Nat
deriving DecidableEq, Repr

/-- Gregorian leap-year rule (`calendar.isleap`). -/
def isLeap (y : Nat) : Bool :=
  (y % 4 == 0 && y % 100 != 0) || (y % 400 == 0)

/-- Number of days of month `m` of year `y` (`calendar.monthrange(y, m)[1]`). -/
def daysInMonth (y m : Nat) : Nat :=
  if m = 2 then (if isLeap y then 29 else 28)
  else if m = 4 ∨ m = 6 ∨ m = 9 ∨ m = 11 then 30
  else 31

/-- A structurally valid calendar date. -/
def Date.Valid (d : Date) : Prop :=
  1 ≤ d.month ∧ d.month ≤ 12 ∧ 1 ≤ d.day ∧ d.day ≤ daysInMonth d.year d.month

instance (d : Date) : Decidable d.Valid := by
  unfold Date.Valid; infer_instance

/-- Python's `date` comparison `a <= b` (chronological order). -/
def Date.dle (a b : Date) : Bool :=
  if a.year ≠ b.year then a.year < b.year
  else if a.month ≠ b.month then a.month < b.month
  else a.day ≤ b.day

/-- Step a date by one day. -/
def Date.addDay (d : Date) : Date :=
  if d.day < daysInMonth d.year d.month then ⟨d.year, d.month, d.day + 1⟩
  else if d.month < 12 then ⟨d.year, d.month + 1, 1⟩
  else ⟨d.year + 1, 1, 1⟩

/-- `d + timedelta(days=n)`. -/
def Date.addDays : Date → Nat → Date
  | d, 0 => d
  | d, n + 1 => d.addDay.addDays n

/-- `d + relativedelta(months=n)` of `dateutil`: month arithmetic with the
day-of-month clamped into the target month. -/
def Date.addMonths (d : Date) (n : Nat) : Date :=
  let t := d.month - 1 + n
  let y := d.year + t / 12
  let m := t % 12 + 1
  ⟨y, m, min d.day (daysInMonth y m)⟩

/-- `d + relativedelta(years=n)` of `dateutil` (Feb 29 clamps to Feb 28). -/
def Date.addYears (d : Date) (n : Nat) : Date :=
  ⟨d.year + n, d.month, min d.day (daysInMonth (d.year + n) d.month)⟩

/-- `RecurringTransactionService.get_next_occurrence_date` (src/services/recurring_service.py:22-33):
`relativedelta` for month/year periods, `timedelta` otherwise. -/
def getNextOccurrenceDate (last : Date) : Period → Date
  | .daily => last.addDays 1
  | .weekly => last.addDays 7
  | .biweekly => last.addDays 14
  | .monthly => last.addMonths 1
  | .quarterly => last.addMonths 3
  | .yearly => last.addYears 1

/-- `RecurringTransactionService.should_create_occurrence`
(src/services/recurring_service.py:35-41): due when the next occurrence date
is on or before `today`. -/
def shouldCreateOccurrence (last : Date) (p : Period) (today : Date) : Bool :=
  (getNextOccurrenceDate last p).dle today

/-- `n`-fold iteration of `get_next_occurrence_date`. -/
def Date.iterateNext (p : Period) : Nat → Date → Date
  | 0, d => d
  | n + 1, d => Date.iterateNext p n (getNextOccurrenceDate d p)

/-- The catch-up counting loop of `process_all_recurring_transactions`
(src/services/recurring_service.py:99-110):

    occurrences_to_create = 0
    check_date = template.transaction_date
    while should_create_occurrence(check_date, period, today):
        occurrences_to_create += 1
        check_date = get_next_occurrence_date(check_date, period)
        if occurrences_to_create > 365:
            occurrences_to_create = 365
            break

The loop body runs at most 366 times (the counter is clamped to 365 and the
loop broken as soon as it reaches 366), so running it with 366 units of fuel
is exact: the fuel-exhausted branch is unreachable from `n = 0`. -/
def countOccLoop (p : Period) (today : Date) : Nat → Date → Nat → Nat × Date
  | 0, check, n => (n, check)
  | fuel + 1, check, n =>
    if shouldCreateOccurrence check p today then
      let n' := n + 1
      let check' := getNextOccurrenceDate check p
      if n' > 365 then (365, check')
      else countOccLoop p today fuel check' n'
    else (n, check)

/-- A `BudgetCategory` row (src/models.py:35-78). -/
structure Category where
  id : Nat
  userId : Nat
  name : String
  allocated : Money
  available : Money
  ctype : String
  color : String
deriving DecidableEq, Repr

/-- A `Transaction` row (src/models.py:80-121). -/
structure Tx where
  id : Nat
  userId : Nat
  categoryId : Option Nat
  amount : Money
  currency : String
  exchangeRate : Option Money
  description : String
  txType : TxType
  date : Date
  payee : Option String
  account : String
  tags : Option String
  recurring : Bool
  recurringPeriod : Option Period
deriving DecidableEq, Repr

/-- The database state the ledger operations act on: the `budget_category`
and `transaction` tables, plus the autoincrement counter for transaction ids. -/
structure LedgerState where
  categories : List Category
  transactions : List Tx
  nextTxId : Nat
deriving DecidableEq, Repr

/-- The error responses of the embedded handlers. -/
inductive ApiError where
  | descriptionRequired
  | invalidType
  | amountNotPositive
  | categoryNotFound
  | recurringPeriodRequired
  | invalidRecurringPeriod
  | txNotFound
  | sameCategory
  | insufficientFunds
  | reconciliationNotFound
  | reconciliationClosed
  | itemNotFound
  | tooManyItems
  | allItemsInvalid
deriving DecidableEq, Repr

instance {e a : Type} [DecidableEq e] [DecidableEq a] : DecidableEq (Except e a) := fun x y =>
  match x, y with
  | .error u, .error v =>
    if h : u = v then .isTrue (h ▸ rfl)
    else .isFalse (fun hh => h (Except.error.inj hh))
  | .ok u, .ok v =>
    if h : u = v then .isTrue (h ▸ rfl)
    else .isFalse (fun hh => h (Except.ok.inj hh))
  | .error _, .ok _ => .isFalse Except.noConfusion
  | .ok _, .error _ => .isFalse Except.noConfusion

/-- `BudgetCategory.query.filter_by(id=cid, user_id=uid).first()`. -/
def findCategory (cid uid : Nat) (cats : List Category) : Option Category :=
  cats.find? (fun c => c.id == cid && c.userId == uid)

/-- Add `δ` to `available_amount` of the category row with primary key `cid`. -/
def adjustAvail (cid : Nat) (δ : Money) (cats : List Category) : List Category :=
  cats.map (fun c => if c.id = cid then { c with available := c.available + δ } else c)

/-- The balance effect of inserting transaction `t`
(src/api/transactions.py:189-190 and 344-347): `available -= amount` on the
linked category when `t` is an expense with a category. -/
def applyTxEffect (t : Tx) (cats : List Category) : List Category :=
  match t.categoryId, t.txType with
  | some cid, .expense => adjustAvail cid (-t.amount) cats
  | _, _ => cats

/-- The balance effect of removing transaction `t`
(src/api/transactions.py:338-341 and 399-402): `available += amount` on the
linked category when `t` is an expense with a category. -/
def revertTxEffect (t : Tx) (cats : List Category) : List Category :=
  match t.categoryId, t.txType with
  | some cid, .expense => adjustAvail cid t.amount cats
  | _, _ => cats

/-- The contribution of transaction `t` to the spend of category `cid`. -/
def contrib (cid : Nat) (t : Tx) : Money :=
  if t.txType = .expense ∧ t.categoryId = some cid then t.amount else 0

/-- All-time spend of category `cid`: the sum of the amounts of its linked
expense transactions. -/
def spentAll (cid : Nat) (txs : List Tx) : Money :=
  (txs.map (contrib cid)).sum

/-- The contribution of `t` to the spend of category `cid` restricted to
`lo <= transaction_date <= hi`. -/
def contribWindow (cid : Nat) (lo hi : Date) (t : Tx) : Money :=
  if t.txType = .expense ∧ t.categoryId = some cid
      ∧ lo.dle t.date = true ∧ t.date.dle hi = true then t.amount else 0

/-- Spend of category `cid` within the date window `[lo, hi]`, as summed by
`BudgetCategory.update_available_amount` (src/models.py:68-74). -/
def spentWindow (cid : Nat) (lo hi : Date) (txs : List Tx) : Money :=
  (txs.map (contribWindow cid lo hi)).sum

/-- First day of the month of `today` (the default `start_date` of
`update_available_amount`). -/
def monthStart (today : Date) : Date := ⟨today.year, today.month, 1⟩

/-- Last day of the month of `today` (the default `end_date` of
`update_available_amount`). -/
def monthEnd (today : Date) : Date :=
  ⟨today.year, today.month, daysInMonth today.year today.month⟩

/-- `BudgetCategory.update_available_amount()` with the default window
(src/models.py:48-75): reset `available_amount` to `allocated_amount` minus
the current-month expense spend. -/
def recomputeAvailable (today : Date) (txs : List Tx) (c : Category) : Category :=
  { c with available := c.allocated - spentWindow c.id (monthStart today) (monthEnd today) txs }

/-- The JSON body accepted by `create_transaction`
(src/api/transactions.py:97-157), after parsing: `amount` through
`parse_currency`, type and period strings to their enumerations (`txType` is
`none` when the string is missing or not one of income/expense/transfer), the
text fields stripped. -/
structure TxInput where
  amount : Money
  description : String
  txType : Option TxType
  categoryId : Option Nat
  currency : String
  date : Option Date
  payee : String
  account : String
  tags : String
  recurring : Bool
  recurringPeriod : Option Period
deriving DecidableEq, Repr

/-- The `Transaction(...)` row built by `create_transaction`
(src/api/transactions.py:170-184). -/
def mkTxFromInput (uid id : Nat) (inp : TxInput) (ty : TxType) (today : Date)
    (rate : Option Money) : Tx :=
  { id := id
    userId := uid
    categoryId := inp.categoryId
    amount := inp.amount
    currency := inp.currency
    exchangeRate := rate
    description := inp.description
    txType := ty
    date := inp.date.getD today
    payee := if inp.payee = "" then none else some inp.payee
    account := inp.account
    tags := if inp.tags = "" then none else some inp.tags
    recurring := inp.recurring
    recurringPeriod := inp.recurringPeriod }

/-- The committed effect of a validated `create_transaction`
(src/api/transactions.py:170-192): insert the row and, when it is an expense
with a category, decrement that category's `available_amount`. -/
def commitCreate (uid : Nat) (inp : TxInput) (ty : TxType) (today : Date)
    (rate : Option Money) (s : LedgerState) : LedgerState :=
  let t := mkTxFromInput uid s.nextTxId inp ty today rate
  { s with
    transactions := t :: s.transactions
    nextTxId := s.nextTxId + 1
    categories := applyTxEffect t s.categories }

/-- `create_transaction` (src/api/transactions.py:97-227).  `rate` is the
result of the best-effort exchange-rate lookup (`none` when it failed or the
currencies agree); `today` is `date.today()`. -/
def createTx (uid : Nat) (inp : TxInput) (today : Date) (rate : Option Money)
    (s : LedgerState) : Except ApiError LedgerState :=
  if inp.description = "" then .error .descriptionRequired
  else match inp.txType with
  | none => .error .invalidType
  | some ty =>
    if inp.amount ≤ 0 then .error .amountNotPositive
    else match inp.categoryId with
    | some cid =>
      match findCategory cid uid s.categories with
      | none => .error .categoryNotFound
      | some _ =>
        if inp.recurring = true ∧ inp.recurringPeriod = none then
          .error .recurringPeriodRequired
        else match inp.recurringPeriod with
        | some p =>
          if apiPeriodOk p then .ok (commitCreate uid inp ty today rate s)
          else .error .invalidRecurringPeriod
        | none => .ok (commitCreate uid inp ty today rate s)
    | none =>
      if inp.recurring = true ∧ inp.recurringPeriod = none then
        .error .recurringPeriodRequired
      else match inp.recurringPeriod with
      | some p =>
        if apiPeriodOk p then .ok (commitCreate uid inp ty today rate s)
        else .error .invalidRecurringPeriod
      | none => .ok (commitCreate uid inp ty today rate s)

/-- The JSON patch accepted by `update_transaction`
(src/api/transactions.py:259-333): a field is `none` when the key is absent.
`categoryId = some none` clears the category (a falsy `category_id`), and
`payee`/`tags` of `some none` store NULL (an empty string after stripping). -/
structure TxPatch where
  amount : Option Money
  description : Option String
  txType : Option TxType
  categoryId : Option (Option Nat)
  currency : Option String
  date : Option Date
  payee : Option (Option String)
  account : Option String
  tags : Option (Option String)
  recurring : Option Bool
  recurringPeriod : Option (Option Period)
deriving DecidableEq, Repr

/-- Apply the field assignments of `update_transaction`
(src/api/transactions.py:279-333) to a transaction row. -/
def applyPatch (t : Tx) (p : TxPatch) : Tx :=
  { t with
    amount := p.amount.getD t.amount
    description := p.description.getD t.description
    txType := p.txType.getD t.txType
    categoryId := p.categoryId.getD t.categoryId
    currency := p.currency.getD t.currency
    date := p.date.getD t.date
    payee := p.payee.getD t.payee
    account := p.account.getD t.account
    tags := p.tags.getD t.tags
    recurring := p.recurring.getD t.recurring
    recurringPeriod := p.recurringPeriod.getD t.recurringPeriod }

/-- `Transaction.query.filter_by(id=txId, user_id=uid)` membership test. -/
def txKey (txId uid : Nat) (t : Tx) : Bool :=
  t.id == txId && t.userId == uid

/-- Replace the first list element satisfying `p` by its image under `g`
(a mutation of the row returned by `.first()`). -/
def replaceFirst (p : α → Bool) (g : α → α) : List α → List α
  | [] => []
  | a :: l => if p a then g a :: l else a :: replaceFirst p g l

/-- `update_transaction` (src/api/transactions.py:259-383): validate the
patch, assign the patched fields, then revert the original balance impact
against the pre-patch category and apply the new impact against the
post-patch category, committing everything together. -/
def updateTx (uid txId : Nat) (p : TxPatch) (s : LedgerState) :
    Except ApiError LedgerState :=
  match s.transactions.find? (txKey txId uid) with
  | none => .error .txNotFound
  | some t₀ =>
    if (match p.amount with | some a => decide (a ≤ 0) | none => false) then
      .error .amountNotPositive
    else if p.description = some "" then .error .descriptionRequired
    else if (match p.categoryId with
             | some (some cid) => (findCategory cid uid s.categories).isNone
             | _ => false) then .error .categoryNotFound
    else if (match p.recurringPeriod with
             | some (some pp) => !apiPeriodOk pp
             | _ => false) then .error .invalidRecurringPeriod
    else
      let t₁ := applyPatch t₀ p
      .ok { s with
            transactions := replaceFirst (txKey txId uid) (fun t => applyPatch t p) s.transactions
            categories := applyTxEffect t₁ (revertTxEffect t₀ s.categories) }

/-- `delete_transaction` (src/api/transactions.py:385-431): revert the
balance impact, then remove the row. -/
def deleteTx (uid txId : Nat) (s : LedgerState) : Except ApiError LedgerState :=
  match s.transactions.find? (txKey txId uid) with
  | none => .error .txNotFound
  | some t₀ =>
    .ok { s with
          categories := revertTxEffect t₀ s.categories
          transactions := s.transactions.eraseP (txKey txId uid) }

/-- One ledger mutation request. -/
inductive LedgerOp where
  | create (uid : Nat) (inp : TxInput) (today : Date) (rate : Option Money)
  | update (uid txId : Nat) (p : TxPatch)
  | delete (uid txId : Nat)

/-- Run one request against the durable state: a rejected request commits
nothing and leaves the state unchanged. -/
def applyOp (s : LedgerState) : LedgerOp → LedgerState
  | .create uid inp today rate =>
    match createTx uid inp today rate s with
    | .ok s' => s'
    | .error _ => s
  | .update uid txId p =>
    match updateTx uid txId p s with
    | .ok s' => s'
    | .error _ => s
  | .delete uid txId =>
    match deleteTx uid txId s with
    | .ok s' => s'
    | .error _ => s

/-- Run a finite sequence of requests. -/
def runOps (s : LedgerState) (ops : List LedgerOp) : LedgerState :=
  ops.foldl applyOp s

/-- The balance invariant: every category's `available_amount` equals its
`allocated_amount` minus the all-time sum of its linked expense amounts
(the window maintained by the create/update/delete mutation path). -/
def BalanceInv (s : LedgerState) : Prop :=
  ∀ c ∈ s.categories, c.available = c.allocated - spentAll c.id s.transactions

instance (s : LedgerState) : Decidable (BalanceInv s) := by
  unfold BalanceInv; infer_instance

/-- The `update_available_amount()` refresh the transfer performs on its two
categories (src/api/budget.py:332-334). -/
def transferRecompute (uid fromId toId : Nat) (today : Date) (txs : List Tx)
    (c : Category) : Category :=
  if (c.id = fromId ∨ c.id = toId) ∧ c.userId = uid then
    recomputeAvailable today txs c
  else c

/-- The four balance mutations of the transfer
(src/api/budget.py:343-348). -/
def transferApply (uid fromId toId : Nat) (amount : Money) (c : Category) : Category :=
  if c.id = fromId ∧ c.userId = uid then
    { c with available := c.available - amount, allocated := c.allocated - amount }
  else if c.id = toId ∧ c.userId = uid then
    { c with available := c.available + amount, allocated := c.allocated + amount }
  else c

/-- The category table after a successful transfer: both involved rows
refreshed, then the four mutations applied. -/
def transferResultCats (uid fromId toId : Nat) (amount : Money) (today : Date)
    (s : LedgerState) : List Category :=
  (s.categories.map (transferRecompute uid fromId toId today s.transactions)).map
    (transferApply uid fromId toId amount)

/-- `transfer_budget` (src/api/budget.py:298-369, the same read-check-mutate
sequence as `BudgetService.transfer_budget`, src/services/budget_service.py:86-118):
validate, refresh both categories' `available_amount` with
`update_available_amount()` (current-month window), check the refreshed
source balance, then move `amount` of allocated and available budget. -/
def transferBudget (uid fromId toId : Nat) (amount : Money) (today : Date)
    (s : LedgerState) : Except ApiError LedgerState :=
  if fromId = toId then .error .sameCategory
  else if amount ≤ 0 then .error .amountNotPositive
  else match findCategory fromId uid s.categories, findCategory toId uid s.categories with
  | some fc, some _ =>
    if fc.allocated - spentWindow fc.id (monthStart today) (monthEnd today) s.transactions
        < amount then .error .insufficientFunds
    else
      .ok { s with categories := transferResultCats uid fromId toId amount today s }
  | _, _ => .error .categoryNotFound

/-- One element of the `transactions` list accepted by
`create_bulk_transactions` (src/api/transactions.py:514-580), after parsing.
`amount = none` embeds a missing or falsy `amount` key (caught by the
missing-required-fields check); `txType = none` a missing/falsy
`transaction_type`.  Note the bulk handler validates only these fields — it
performs no category-ownership check and no type-enumeration check. -/
structure BulkItem where
  amount : Option Money
  description : String
  txType : Option TxType
  categoryId : Option Nat
  currency : String
  date : Option Date
  payee : String
  account : String
  tags : String
deriving DecidableEq, Repr

/-- Per-item validation of `create_bulk_transactions`
(src/api/transactions.py:536-543): required fields present and parsed amount
positive. -/
def bulkItemValid (it : BulkItem) : Bool :=
  match it.amount, it.txType with
  | some a, some _ => it.description ≠ "" && decide (0 < a)
  | _, _ => false

/-- The `Transaction(...)` row built for a valid bulk item
(src/api/transactions.py:546-557): note no exchange-rate capture and no
recurring fields. -/
def mkTxFromBulk (uid id : Nat) (it : BulkItem) (a : Money) (ty : TxType)
    (today : Date) : Tx :=
  { id := id
    userId := uid
    categoryId := it.categoryId
    amount := a
    currency := it.currency
    exchangeRate := none
    description := it.description
    txType := ty
    date := it.date.getD today
    payee := if it.payee = "" then none else some it.payee
    account := it.account
    tags := if it.tags = "" then none else some it.tags
    recurring := false
    recurringPeriod := none }

/-- The accumulation loop of `create_bulk_transactions`
(src/api/transactions.py:530-563): returns the created rows (in order) and
the 1-based indices of the items that failed validation. -/
def bulkLoop (uid : Nat) (today : Date) : Nat → Nat → List BulkItem → List Tx × List Nat
  | _, _, [] => ([], [])
  | nextId, i, it :: rest =>
    match it.amount, it.txType with
    | some a, some ty =>
      if it.description ≠ "" && decide (0 < a) then
        let (txs, errs) := bulkLoop uid today (nextId + 1) (i + 1) rest
        (mkTxFromBulk uid nextId it a ty today :: txs, errs)
      else
        let (txs, errs) := bulkLoop uid today nextId (i + 1) rest
        (txs, i :: errs)
    | _, _ =>
      let (txs, errs) := bulkLoop uid today nextId (i + 1) rest
      (txs, i :: errs)

/-- `create_bulk_transactions` (src/api/transactions.py:514-580): batches of
more than 100 items are rejected, per-item errors are accumulated, an
all-invalid batch is rejected wholesale, and otherwise the valid rows are
committed (with no category balance adjustment) while the failed indices are
reported. -/
def bulkCreate (uid : Nat) (items : List BulkItem) (today : Date)
    (s : LedgerState) : Except ApiError (LedgerState × Nat × List Nat) :=
  if items.length > 100 then .error .tooManyItems
  else
    let (created, errs) := bulkLoop uid today s.nextTxId 1 items
    if errs ≠ [] ∧ created = [] then .error .allItemsInvalid
    else .ok ({ s with
                transactions := s.transactions ++ created
                nextTxId := s.nextTxId + created.length },
              created.length, errs)

/-- The occurrence row built by
`RecurringTransactionService.create_recurring_occurrence`
(src/services/recurring_service.py:43-72): a non-recurring copy of the
template, dated at the next occurrence date, description suffixed. -/
def mkOccurrence (t : Tx) (id : Nat) (d : Date) : Tx :=
  { t with
    id := id
    date := d
    description := t.description ++ " (Auto-generated)"
    recurring := false
    recurringPeriod := none }

/-- The loop state of `k` repetitions of
`create_recurring_occurrence(template)`
(src/services/recurring_service.py:113-122): each iteration inserts an
occurrence at `get_next_occurrence_date(template.transaction_date, period)`
and advances the template's `transaction_date` to that date.  `acc` holds
the rows created so far, newest first. -/
def createOccLoop (p : Period) : Nat → Tx → List Tx → Nat → Tx × List Tx × Nat
  | 0, t, acc, nid => (t, acc.reverse, nid)
  | k + 1, t, acc, nid =>
    createOccLoop p k { t with date := getNextOccurrenceDate t.date p }
      (mkOccurrence t nid (getNextOccurrenceDate t.date p) :: acc) (nid + 1)

/-- `k` repetitions of `create_recurring_occurrence(template)`: returns the
advanced template, the created rows in creation order and the next free
id. -/
def createOccurrences (p : Period) (nextId : Nat) (t : Tx) (k : Nat) :
    Tx × List Tx × Nat :=
  createOccLoop p k t [] nextId

/-- Result of processing one recurring template. -/
structure ProcResult where
  template : Tx
  created : List Tx
  count : Nat
  nextId : Nat
deriving DecidableEq, Repr

/-- Processing of a single recurring template inside
`process_all_recurring_transactions` (src/services/recurring_service.py:93-148).

A template whose `recurring_period` is not a valid period raises `ValueError`
at the first `should_create_occurrence` call; the per-template handler
catches it (nothing has been mutated yet).  Otherwise the catch-up count is
computed by `countOccLoop` and that many occurrences are materialized — or,
in dry-run mode, only counted, the loop body still executing
`template.transaction_date = next_date` (line 136). -/
def processOne (today : Date) (dryRun : Bool) (nextId : Nat) (t : Tx) : ProcResult :=
  match t.recurringPeriod with
  | none => ⟨t, [], 0, nextId⟩
  | some p =>
    if shouldCreateOccurrence t.date p today then
      if dryRun then
        ⟨{ t with date := Date.iterateNext p (countOccLoop p today 366 t.date 0).1 t.date },
          [], (countOccLoop p today 366 t.date 0).1, nextId⟩
      else
        match createOccurrences p nextId t (countOccLoop p today 366 t.date 0).1 with
        | (t', occs, nid) => ⟨t', occs, (countOccLoop p today 366 t.date 0).1, nid⟩
    else ⟨t, [], 0, nextId⟩

/-- The template iteration of `process_all_recurring_transactions`: each
transaction flagged `recurring` is processed in order; the others are left
alone.  Returns the updated rows, the created occurrences, the created count
and the next free id. -/
def processAllAux (today : Date) (dryRun : Bool) :
    Nat → List Tx → List Tx × List Tx × Nat × Nat
  | nextId, [] => ([], [], 0, nextId)
  | nextId, t :: ts =>
    if t.recurring then
      match processOne today dryRun nextId t with
      | ⟨t1, created1, cnt1, nid1⟩ =>
        match processAllAux today dryRun nid1 ts with
        | (ts', created, cnt, nid) => (t1 :: ts', created1 ++ created, cnt1 + cnt, nid)
    else
      match processAllAux today dryRun nextId ts with
      | (ts', created, cnt, nid) => (t :: ts', created, cnt, nid)

/-- `process_all_recurring_transactions(dry_run)`
(src/services/recurring_service.py:74-157) acting on the session state;
`today` is `date.today()`.  Returns the resulting state and the
`created` counter of the returned statistics. -/
def processAll (today : Date) (dryRun : Bool) (s : LedgerState) : LedgerState × Nat :=
  let (txs', created, cnt, nid) := processAllAux today dryRun s.nextTxId s.transactions
  ({ s with transactions := txs' ++ created, nextTxId := nid }, cnt)

/-- A `ReconciliationItem` row (src/models.py:302-315). -/
structure RecItem where
  id : Nat
  txId : Nat
  cleared : Bool
  notes : String
deriving DecidableEq, Repr

/-- An `AccountReconciliation` row (src/models.py:264-300).  `reconciledAt`
holds the `datetime.utcnow()` timestamp as an abstract clock value. -/
structure Reconciliation where
  id : Nat
  userId : Nat
  account : String
  statementDate : Date
  statementBalance : Money
  bookBalance : Money
  difference : Money
  reconciled : Bool
  reconciledAt : Option Nat
  notes : String
deriving DecidableEq, Repr

/-- One reconciliation together with its items and the transaction table the
items reference (`item.transaction`). -/
structure ReconState where
  recon : Reconciliation
  items : List RecItem
  transactions : List Tx
deriving DecidableEq, Repr

/-- The signed amount of an item's transaction as summed by
`calculate_balances` (src/models.py:289-292): `+amount` for income,
`-amount` otherwise (expense and transfer are both negative).  The
`transaction_id` foreign key guarantees the referenced row exists; a missing
row contributes nothing. -/
def signedAmount (txs : List Tx) (it : RecItem) : Money :=
  match txs.find? (fun t => t.id == it.txId) with
  | some t => if t.txType = .income then t.amount else -t.amount
  | none => 0

/-- `cleared_total` of `calculate_balances`: the signed sum over the cleared
items. -/
def clearedTotal (txs : List Tx) (items : List RecItem) : Money :=
  ((items.filter (fun it => it.cleared)).map (signedAmount txs)).sum

/-- `AccountReconciliation.calculate_balances` (src/models.py:286-300):
recompute `book_balance` and `difference`, and auto-mark the reconciliation
as reconciled (with a timestamp) when the difference is exactly zero. -/
def calculateBalances (now : Nat) (st : ReconState) : ReconState :=
  let book := clearedTotal st.transactions st.items
  let diff := st.recon.statementBalance - book
  let r := { st.recon with bookBalance := book, difference := diff }
  let r' :=
    if diff = 0 ∧ r.reconciled = false then
      { r with reconciled := true, reconciledAt := some now }
    else r
  { st with recon := r' }

/-- Flip the `cleared` flag of the item row with id `itemId`
(src/api/reconciliation.py:190-191). -/
def toggleItems (itemId : Nat) (items : List RecItem) : List RecItem :=
  replaceFirst (fun it => it.id == itemId)
    (fun it => { it with cleared := !it.cleared }) items

/-- `toggle_reconciliation_item` (src/api/reconciliation.py:166-209): reject
when the reconciliation belongs to another user or is already reconciled or
the item is missing; otherwise flip the item's `cleared` flag and recalculate
the balances, committing both together. -/
def toggleItem (uid itemId : Nat) (now : Nat) (st : ReconState) :
    Except ApiError ReconState :=
  if st.recon.userId ≠ uid then .error .reconciliationNotFound
  else if st.recon.reconciled then .error .reconciliationClosed
  else match st.items.find? (fun it => it.id == itemId) with
  | none => .error .itemNotFound
  | some _ => .ok (calculateBalances now { st with items := toggleItems itemId st.items })

/-- Run a toggle request against the durable state: a rejected request
commits nothing. -/
def applyToggle (uid itemId : Nat) (now : Nat) (st : ReconState) : ReconState :=
  match toggleItem uid itemId now st with
  | .ok st' => st'
  | .error _ => st

/-- The stored balances agree with the recomputation from the items — the
invariant every reconciliation produced by the API satisfies
(`create_reconciliation` initializes `book_balance=0, difference=statement`
over all-uncleared items, and every toggle recalculates). -/
def BalancesConsistent (st : ReconState) : Prop :=
  st.recon.bookBalance = clearedTotal st.transactions st.items ∧
  st.recon.difference = st.recon.statementBalance - st.recon.bookBalance

instance (st : ReconState) : Decidable (BalancesConsistent st) := by
  unfold BalancesConsistent; infer_instance

/-! ### Lemmas about the spend sums -/

theorem spentAll_cons (cid : Nat) (t : Tx) (txs : List Tx) :
    spentAll cid (t :: txs) = contrib cid t + spentAll cid txs := by
  simp [spentAll]

theorem spentAll_eraseP (cid : Nat) (p : Tx → Bool) (txs : List Tx) (t₀ : Tx)
    (h : txs.find? p = some t₀) :
    spentAll cid (txs.eraseP p) = spentAll cid txs - contrib cid t₀ := by
  induction txs with
  | nil => simp at h
  | cons a l ih =>
    by_cases hp : p a
    · rw [List.find?_cons_of_pos _ hp] at h
      obtain rfl : a = t₀ := by simpa using h
      rw [List.eraseP_cons_of_pos hp, spentAll_cons]
      ring
    · rw [List.find?_cons_of_neg _ (by simpa using hp)] at h
      rw [List.eraseP_cons_of_neg (by simpa using hp)]
      rw [spentAll_cons, spentAll_cons, ih h]
      ring

theorem spentAll_replaceFirst (cid : Nat) (p : Tx → Bool) (g : Tx → Tx)
    (txs : List Tx) (t₀ : Tx) (h : txs.find? p = some t₀) :
    spentAll cid (replaceFirst p g txs) =
      spentAll cid txs - contrib cid t₀ + contrib cid (g t₀) := by
  induction txs with
  | nil => simp at h
  | cons a l ih =>
    by_cases hp : p a
    · rw [List.find?_cons_of_pos _ hp] at h
      obtain rfl : a = t₀ := by simpa using h
      rw [replaceFirst, if_pos hp, spentAll_cons, spentAll_cons]
      ring
    · rw [List.find?_cons_of_neg _ (by simpa using hp)] at h
      rw [replaceFirst, if_neg hp, spentAll_cons, spentAll_cons, ih h]
      ring

/-! ### The balance invariant is preserved by each effect -/

theorem contrib_eq_zero_of_ne (c : Nat) (t : Tx) (cid : Nat)
    (hcat : t.categoryId = some cid) (hne : c ≠ cid) : contrib c t = 0 := by
  unfold contrib
  rw [if_neg]
  rintro ⟨-, hc⟩
  rw [hcat] at hc
  exact hne (by simpa using hc.symm)

theorem inv_applyTxEffect (t : Tx) (cats : List Category) (txs : List Tx)
    (h : ∀ c ∈ cats, c.available = c.allocated - spentAll c.id txs) :
    ∀ c ∈ applyTxEffect t cats,
      c.available = c.allocated - spentAll c.id (t :: txs) := by
  intro c hc
  unfold applyTxEffect at hc
  split at hc
  · next cid hcat hty =>
    unfold adjustAvail at hc
    rw [List.mem_map] at hc
    obtain ⟨c₀, hc₀, rfl⟩ := hc
    by_cases hid : c₀.id = cid
    · rw [if_pos hid]
      have hcontrib : contrib c₀.id t = t.amount := by
        unfold contrib
        rw [if_pos ⟨hty, by rw [hcat, hid]⟩]
      simp only [spentAll_cons, hcontrib, h c₀ hc₀]
      ring
    · rw [if_neg hid]
      rw [spentAll_cons, contrib_eq_zero_of_ne c₀.id t cid hcat hid, h c₀ hc₀]
      ring
  · next hno =>
    rw [spentAll_cons]
    have : contrib c.id t = 0 := by
      unfold contrib
      rw [if_neg]
      rintro ⟨hty, hcat⟩
      rcases hcases : t.categoryId with - | cid
      · rw [hcases] at hcat; exact Option.noConfusion hcat
      · exact hno cid hcases hty
    rw [this, h c hc]
    ring

theorem inv_revertTxEffect (t : Tx) (cats : List Category) (txs txs' : List Tx)
    (hspent : ∀ cid, spentAll cid txs' = spentAll cid txs - contrib cid t)
    (h : ∀ c ∈ cats, c.available = c.allocated - spentAll c.id txs) :
    ∀ c ∈ revertTxEffect t cats,
      c.available = c.allocated - spentAll c.id txs' := by
  intro c hc
  unfold revertTxEffect at hc
  split at hc
  · next cid hcat hty =>
    unfold adjustAvail at hc
    rw [List.mem_map] at hc
    obtain ⟨c₀, hc₀, rfl⟩ := hc
    by_cases hid : c₀.id = cid
    · rw [if_pos hid]
      have hcontrib : contrib c₀.id t = t.amount := by
        unfold contrib
        rw [if_pos ⟨hty, by rw [hcat, hid]⟩]
      simp only [hspent, hcontrib, h c₀ hc₀]
      ring
    · rw [if_neg hid]
      rw [hspent, contrib_eq_zero_of_ne c₀.id t cid hcat hid, h c₀ hc₀]
      ring
  · next hno =>
    have : contrib c.id t = 0 := by
      unfold contrib
      rw [if_neg]
      rintro ⟨hty, hcat⟩
      rcases hcases : t.categoryId with - | cid
      · rw [hcases] at hcat; exact Option.noConfusion hcat
      · exact hno cid hcases hty
    rw [hspent, this, h c hc]
    ring

/-! ### Inversion of the operation results -/

theorem createTx_ok_inv {uid : Nat} {inp : TxInput} {today : Date}
    {rate : Option Money} {s s' : LedgerState}
    (h : createTx uid inp today rate s = .ok s') :
    ∃ ty, inp.txType = some ty ∧ s' = commitCreate uid inp ty today rate s := by
  unfold createTx at h
  split at h
  · exact absurd h (by simp)
  · split at h
    · exact absurd h (by simp)
    · next ty hty =>
      refine ⟨ty, hty, ?_⟩
      split at h
      · exact absurd h (by simp)
      · split at h
        · split at h
          · exact absurd h (by simp)
          · split at h
            · exact absurd h (by simp)
            · split at h
              · split at h
                · simpa using h.symm
                · exact absurd h (by simp)
              · simpa using h.symm
        · split at h
          · exact absurd h (by simp)
          · split at h
            · split at h
              · simpa using h.symm
              · exact absurd h (by simp)
            · simpa using h.symm

theorem updateTx_ok_inv {uid txId : Nat} {p : TxPatch} {s s' : LedgerState}
    (h : updateTx uid txId p s = .ok s') :
    ∃ t₀, s.transactions.find? (txKey txId uid) = some t₀ ∧
      s' = { s with
             transactions := replaceFirst (txKey txId uid) (fun t => applyPatch t p) s.transactions
             categories := applyTxEffect (applyPatch t₀ p) (revertTxEffect t₀ s.categories) } := by
  unfold updateTx at h
  split at h
  · exact absurd h (by simp)
  · next t₀ hfind =>
    refine ⟨t₀, hfind, ?_⟩
    split at h
    · exact absurd h (by simp)
    · split at h
      · exact absurd h (by simp)
      · split at h
        · exact absurd h (by simp)
        · split at h
          · exact absurd h (by simp)
          · simpa using h.symm

theorem deleteTx_ok_inv {uid txId : Nat} {s s' : LedgerState}
    (h : deleteTx uid txId s = .ok s') :
    ∃ t₀, s.transactions.find? (txKey txId uid) = some t₀ ∧
      s' = { s with
             categories := revertTxEffect t₀ s.categories
             transactions := s.transactions.eraseP (txKey txId uid) } := by
  unfold deleteTx at h
  split at h
  · exact absurd h (by simp)
  · next t₀ hfind => exact ⟨t₀, hfind, by simpa using h.symm⟩

/-! ### One request preserves the balance invariant -/

theorem applyOp_preserves_inv (s : LedgerState) (op : LedgerOp)
    (h : BalanceInv s) : BalanceInv (applyOp s op) := by
  cases op with
  | create uid inp today rate =>
    dsimp only [applyOp]
    cases hres : createTx uid inp today rate s with
    | error e => exact h
    | ok s' =>
      show BalanceInv s'
      obtain ⟨ty, -, rfl⟩ := createTx_ok_inv hres
      intro c hc
      exact inv_applyTxEffect _ s.categories s.transactions h c hc
  | update uid txId p =>
    dsimp only [applyOp]
    cases hres : updateTx uid txId p s with
    | error e => exact h
    | ok s' =>
      show BalanceInv s'
      obtain ⟨t₀, hfind, rfl⟩ := updateTx_ok_inv hres
      intro c hc
      have mid : ∀ c ∈ revertTxEffect t₀ s.categories,
          c.available = c.allocated - spentAll c.id (s.transactions.eraseP (txKey txId uid)) := by
        refine inv_revertTxEffect t₀ s.categories s.transactions _ ?_ h
        intro cid
        exact spentAll_eraseP cid _ s.transactions t₀ hfind
      have top : ∀ c ∈ applyTxEffect (applyPatch t₀ p) (revertTxEffect t₀ s.categories),
          c.available = c.allocated -
            spentAll c.id (applyPatch t₀ p :: s.transactions.eraseP (txKey txId uid)) :=
        inv_applyTxEffect _ _ _ mid
      have hc' := top c hc
      rw [hc']
      have : spentAll c.id (applyPatch t₀ p :: s.transactions.eraseP (txKey txId uid)) =
          spentAll c.id (replaceFirst (txKey txId uid) (fun t => applyPatch t p) s.transactions) := by
        rw [spentAll_cons, spentAll_eraseP c.id _ s.transactions t₀ hfind,
          spentAll_replaceFirst c.id _ _ s.transactions t₀ hfind]
        ring
      rw [this]
  | delete uid txId =>
    dsimp only [applyOp]
    cases hres : deleteTx uid txId s with
    | error e => exact h
    | ok s' =>
      show BalanceInv s'
      obtain ⟨t₀, hfind, rfl⟩ := deleteTx_ok_inv hres
      intro c hc
      refine inv_revertTxEffect t₀ s.categories s.transactions _ ?_ h c hc
      intro cid
      exact spentAll_eraseP cid _ s.transactions t₀ hfind

/-! ### Success shapes of the operations -/

theorem createTx_eq_ok (uid : Nat) (inp : TxInput) (today : Date)
    (rate : Option Money) (s : LedgerState) (ty : TxType)
    (hd : ¬inp.description = "")
    (hty : inp.txType = some ty)
    (ha : 0 < inp.amount)
    (hcat : ∀ cid, inp.categoryId = some cid →
      (findCategory cid uid s.categories).isSome = true)
    (hrec : inp.recurring = true → ¬inp.recurringPeriod = none)
    (hper : ∀ p, inp.recurringPeriod = some p → apiPeriodOk p = true) :
    createTx uid inp today rate s = .ok (commitCreate uid inp ty today rate s) := by
  have hrec' : ¬(inp.recurring = true ∧ inp.recurringPeriod = none) := by
    rintro ⟨h1, h2⟩; exact hrec h1 h2
  unfold createTx
  rw [if_neg hd, hty]
  dsimp only
  rw [if_neg (not_le.mpr ha)]
  cases hcid : inp.categoryId with
  | some cid =>
    dsimp only
    obtain ⟨c, hc⟩ := Option.isSome_iff_exists.mp (hcat cid hcid)
    rw [hc, if_neg hrec']
    cases hp : inp.recurringPeriod with
    | some q => dsimp only; rw [if_pos (hper q hp)]
    | none => rfl
  | none =>
    dsimp only
    rw [if_neg hrec']
    cases hp : inp.recurringPeriod with
    | some q => dsimp only; rw [if_pos (hper q hp)]
    | none => rfl

theorem updateTx_eq_ok (uid txId : Nat) (p : TxPatch) (s : LedgerState) (t₀ : Tx)
    (hfind : s.transactions.find? (txKey txId uid) = some t₀)
    (hamt : ∀ a, p.amount = some a → 0 < a)
    (hdesc : ¬p.description = some "")
    (hcat : ∀ cid, p.categoryId = some (some cid) →
      (findCategory cid uid s.categories).isSome = true)
    (hper : ∀ pp, p.recurringPeriod = some (some pp) → apiPeriodOk pp = true) :
    updateTx uid txId p s = .ok
      { s with
        transactions := replaceFirst (txKey txId uid) (fun t => applyPatch t p) s.transactions
        categories := applyTxEffect (applyPatch t₀ p) (revertTxEffect t₀ s.categories) } := by
  have h1 : ¬((match p.amount with
      | some a => decide (a ≤ 0)
      | none => false) = true) := by
    cases hpa : p.amount with
    | none => simp
    | some a => simpa using not_le.mpr (hamt a hpa)
  have h2 : ¬((match p.categoryId with
      | some (some cid) => (findCategory cid uid s.categories).isNone
      | _ => false) = true) := by
    cases hpc : p.categoryId with
    | none => simp
    | some oc =>
      cases oc with
      | none => simp
      | some cid =>
        have := hcat cid hpc
        simp only [Option.isNone_iff_eq_none]
        intro hnone
        rw [hnone] at this
        exact Bool.noConfusion this
  have h3 : ¬((match p.recurringPeriod with
      | some (some pp) => !apiPeriodOk pp
      | _ => false) = true) := by
    cases hpp : p.recurringPeriod with
    | none => simp
    | some oc =>
      cases oc with
      | none => simp
      | some q => simp [hper q hpp]
  unfold updateTx
  rw [hfind]
  dsimp only
  rw [if_neg h1, if_neg hdesc, if_neg h2, if_neg h3]

theorem deleteTx_eq_ok (uid txId : Nat) (s : LedgerState) (t₀ : Tx)
    (hfind : s.transactions.find? (txKey txId uid) = some t₀) :
    deleteTx uid txId s = .ok
      { s with
        categories := revertTxEffect t₀ s.categories
        transactions := s.transactions.eraseP (txKey txId uid) } := by
  unfold deleteTx
  rw [hfind]

/-! ### Category lookups through balance adjustments -/

theorem findCategory_map (cid uid : Nat) (cats : List Category)
    (f : Category → Category)
    (hf : ∀ c, (f c).id = c.id ∧ (f c).userId = c.userId) :
    findCategory cid uid (cats.map f) = (findCategory cid uid cats).map f := by
  unfold findCategory
  rw [List.find?_map]
  have hpf : ((fun c => c.id == cid && c.userId == uid) ∘ f) =
      (fun c : Category => c.id == cid && c.userId == uid) := by
    funext c
    show ((f c).id == cid && (f c).userId == uid) = (c.id == cid && c.userId == uid)
    rw [(hf c).1, (hf c).2]
  rw [hpf]

theorem findCategory_adjustAvail (cid uid cid' : Nat) (δ : Money)
    (cats : List Category) :
    findCategory cid uid (adjustAvail cid' δ cats) =
      (findCategory cid uid cats).map
        (fun c => if c.id = cid' then { c with available := c.available + δ } else c) := by
  unfold adjustAvail
  refine findCategory_map cid uid cats _ (fun c => ?_)
  by_cases h : c.id = cid' <;> simp [h]

theorem findCategory_applyTxEffect_isSome (cid uid : Nat) (t : Tx)
    (cats : List Category) :
    (findCategory cid uid (applyTxEffect t cats)).isSome =
      (findCategory cid uid cats).isSome := by
  unfold applyTxEffect
  split
  · rw [findCategory_adjustAvail]
    cases findCategory cid uid cats <;> rfl
  · rfl

theorem findCategory_revertTxEffect_isSome (cid uid : Nat) (t : Tx)
    (cats : List Category) :
    (findCategory cid uid (revertTxEffect t cats)).isSome =
      (findCategory cid uid cats).isSome := by
  unfold revertTxEffect
  split
  · rw [findCategory_adjustAvail]
    cases findCategory cid uid cats <;> rfl
  · rfl

/-- The balance effect of a transaction depends only on its category link,
its type and its amount. -/
theorem applyTxEffect_congr (t t' : Tx)
    (h1 : t.categoryId = t'.categoryId) (h2 : t.txType = t'.txType)
    (h3 : t.amount = t'.amount) : applyTxEffect t = applyTxEffect t' := by
  funext cats
  unfold applyTxEffect
  rw [h1, h2, h3]

/-! ### Claim C1 -/

/-- C1: for every budget category and every finite sequence of
create/update/delete requests on transactions, if every category's
`available_amount` initially equals `allocated_amount` minus the sum of its
linked expense amounts, the same holds after the whole sequence — the window
of the sum being the all-time window that the mutation path of the code
maintains. -/
theorem c1_balance_invariant (s : LedgerState) (ops : List LedgerOp)
    (h : BalanceInv s) : BalanceInv (runOps s ops) := by
  induction ops generalizing s with
  | nil => exact h
  | cons op rest ih =>
    show BalanceInv (List.foldl applyOp (applyOp s op) rest)
    exact ih (applyOp s op) (applyOp_preserves_inv s op h)

/-- The scenario of spec §8: a category allocated 500.00 with one expense
transaction created for 120.00, updated to 50.00, then deleted. -/
def c1State : LedgerState :=
  { categories := [⟨1, 1, "Groceries", 50000, 50000, "expense", "#007bff"⟩]
    transactions := []
    nextTxId := 1 }

def c1Input : TxInput :=
  { amount := 12000
    description := "Food"
    txType := some .expense
    categoryId := some 1
    currency := "KES"
    date := some ⟨2024, 5, 10⟩
    payee := ""
    account := "checking"
    tags := ""
    recurring := false
    recurringPeriod := none }

def c1Patch : TxPatch :=
  { amount := some 5000
    description := none
    txType := none
    categoryId := none
    currency := none
    date := none
    payee := none
    account := none
    tags := none
    recurring := none
    recurringPeriod := none }

def c1Ops : List LedgerOp :=
  [.create 1 c1Input ⟨2024, 5, 10⟩ none, .update 1 1 c1Patch, .delete 1 1]

/-- Witness for C1 on the §8 scenario. -/
theorem c1_balance_invariant_witness :
    BalanceInv c1State ∧ BalanceInv (runOps c1State c1Ops) :=
  ⟨by decide, c1_balance_invariant c1State c1Ops (by decide)⟩

/-! ### Claim C2 -/

/-- C2: `update_transaction` first reverses the original effect against the
pre-patch category and then applies the new effect against the post-patch
category, so creating a transaction and then patching every mutable field to
valid values leaves the category table identical to deleting the original
and creating a fresh transaction carrying the patched values. -/
theorem c2_update_symmetry
    (uid : Nat) (inp inp2 : TxInput) (p : TxPatch) (today today2 : Date)
    (rate rate2 : Option Money) (s : LedgerState)
    (a : Money) (d : String) (ty₀ ty₁ : TxType) (oc : Option Nat)
    (cur : String) (dt : Date) (pe : Option String) (acct : String)
    (tg : Option String) (rb : Bool) (per : Option Period)
    (hd0 : ¬inp.description = "") (hty0 : inp.txType = some ty₀)
    (ha0 : 0 < inp.amount)
    (hcat0 : ∀ cid, inp.categoryId = some cid →
      (findCategory cid uid s.categories).isSome = true)
    (hrec0 : inp.recurring = true → ¬inp.recurringPeriod = none)
    (hper0 : ∀ q, inp.recurringPeriod = some q → apiPeriodOk q = true)
    (hpa : p.amount = some a) (hpd : p.description = some d)
    (hpt : p.txType = some ty₁) (hpc : p.categoryId = some oc)
    (hpcur : p.currency = some cur) (hpdt : p.date = some dt)
    (hppay : p.payee = some pe) (hpacct : p.account = some acct)
    (hptags : p.tags = some tg) (hprec : p.recurring = some rb)
    (hpper : p.recurringPeriod = some per)
    (hA : 0 < a) (hD : ¬d = "")
    (hoc : ∀ cid, oc = some cid →
      (findCategory cid uid s.categories).isSome = true)
    (hrecb : rb = true → ¬per = none)
    (hperv : ∀ q, per = some q → apiPeriodOk q = true)
    (h2a : inp2.amount = a) (h2d : inp2.description = d)
    (h2t : inp2.txType = some ty₁) (h2c : inp2.categoryId = oc)
    (h2rec : inp2.recurring = rb) (h2per : inp2.recurringPeriod = per) :
    ∃ s₁ s₂ s₁' s₃,
      createTx uid inp today rate s = .ok s₁ ∧
      updateTx uid s.nextTxId p s₁ = .ok s₂ ∧
      deleteTx uid s.nextTxId s₁ = .ok s₁' ∧
      createTx uid inp2 today2 rate2 s₁' = .ok s₃ ∧
      s₂.categories = s₃.categories := by
  have h1 : createTx uid inp today rate s =
      .ok (commitCreate uid inp ty₀ today rate s) :=
    createTx_eq_ok uid inp today rate s ty₀ hd0 hty0 ha0 hcat0 hrec0 hper0
  set t₀ := mkTxFromInput uid s.nextTxId inp ty₀ today rate with ht₀
  set s₁ := commitCreate uid inp ty₀ today rate s with hs₁
  have e1 : s₁.transactions = t₀ :: s.transactions := rfl
  have e2 : s₁.categories = applyTxEffect t₀ s.categories := rfl
  have e3 : s₁.nextTxId = s.nextTxId + 1 := rfl
  have hkey : txKey s.nextTxId uid t₀ = true := by
    simp [txKey, ht₀, mkTxFromInput]
  have hfind1 : s₁.transactions.find? (txKey s.nextTxId uid) = some t₀ := by
    rw [e1]
    exact List.find?_cons_of_pos _ hkey
  have hisSome1 : ∀ cid, (findCategory cid uid s₁.categories).isSome =
      (findCategory cid uid s.categories).isSome := by
    intro cid
    rw [e2, findCategory_applyTxEffect_isSome]
  have h2 : updateTx uid s.nextTxId p s₁ = .ok
      { s₁ with
        transactions := replaceFirst (txKey s.nextTxId uid) (fun t => applyPatch t p) s₁.transactions
        categories := applyTxEffect (applyPatch t₀ p) (revertTxEffect t₀ s₁.categories) } := by
    refine updateTx_eq_ok uid s.nextTxId p s₁ t₀ hfind1 ?_ ?_ ?_ ?_
    · intro x hx
      rw [hpa] at hx
      obtain rfl : a = x := by simpa using hx
      exact hA
    · rw [hpd]
      simp [hD]
    · intro cid hcid
      rw [hpc] at hcid
      obtain rfl : oc = some cid := by simpa using hcid
      rw [hisSome1]
      exact hoc cid rfl
    · intro q hq
      rw [hpper] at hq
      obtain rfl : per = some q := by simpa using hq
      exact hperv q rfl
  have h3 : deleteTx uid s.nextTxId s₁ = .ok
      { s₁ with
        categories := revertTxEffect t₀ s₁.categories
        transactions := s₁.transactions.eraseP (txKey s.nextTxId uid) } :=
    deleteTx_eq_ok uid s.nextTxId s₁ t₀ hfind1
  set s₁' : LedgerState :=
    { s₁ with
      categories := revertTxEffect t₀ s₁.categories
      transactions := s₁.transactions.eraseP (txKey s.nextTxId uid) } with hs₁'
  have h4 : createTx uid inp2 today2 rate2 s₁' = .ok
      (commitCreate uid inp2 ty₁ today2 rate2 s₁') := by
    refine createTx_eq_ok uid inp2 today2 rate2 s₁' ty₁ ?_ h2t ?_ ?_ ?_ ?_
    · rw [h2d]; exact hD
    · rw [h2a]; exact hA
    · intro cid hcid
      rw [h2c] at hcid
      show (findCategory cid uid (revertTxEffect t₀ s₁.categories)).isSome = true
      rw [findCategory_revertTxEffect_isSome, hisSome1]
      exact hoc cid hcid
    · rw [h2rec, h2per]; exact hrecb
    · intro q hq
      rw [h2per] at hq
      exact hperv q hq
  refine ⟨_, _, _, _, h1, h2, h3, h4, ?_⟩
  show applyTxEffect (applyPatch t₀ p) (revertTxEffect t₀ s₁.categories) =
    (commitCreate uid inp2 ty₁ today2 rate2 s₁').categories
  have e4 : (commitCreate uid inp2 ty₁ today2 rate2 s₁').categories =
      applyTxEffect (mkTxFromInput uid s₁'.nextTxId inp2 ty₁ today2 rate2)
        s₁'.categories := rfl
  rw [e4]
  have e5 : s₁'.categories = revertTxEffect t₀ s₁.categories := rfl
  rw [e5]
  have hcongr : applyTxEffect (applyPatch t₀ p) =
      applyTxEffect (mkTxFromInput uid s₁'.nextTxId inp2 ty₁ today2 rate2) := by
    refine applyTxEffect_congr _ _ ?_ ?_ ?_
    · show (applyPatch t₀ p).categoryId =
        (mkTxFromInput uid s₁'.nextTxId inp2 ty₁ today2 rate2).categoryId
      simp [applyPatch, mkTxFromInput, hpc, h2c]
    · show (applyPatch t₀ p).txType =
        (mkTxFromInput uid s₁'.nextTxId inp2 ty₁ today2 rate2).txType
      simp [applyPatch, mkTxFromInput, hpt]
    · show (applyPatch t₀ p).amount =
        (mkTxFromInput uid s₁'.nextTxId inp2 ty₁ today2 rate2).amount
      simp [applyPatch, mkTxFromInput, hpa, h2a]
  rw [hcongr]

def c2State : LedgerState :=
  { categories :=
      [⟨1, 1, "Groceries", 50000, 50000, "expense", "#007bff"⟩,
       ⟨2, 1, "Dining Out", 30000, 30000, "expense", "#fd7e14"⟩]
    transactions := []
    nextTxId := 1 }

def c2Input : TxInput :=
  { amount := 12000
    description := "Food"
    txType := some .expense
    categoryId := some 1
    currency := "KES"
    date := some ⟨2024, 5, 10⟩
    payee := ""
    account := "checking"
    tags := ""
    recurring := false
    recurringPeriod := none }

/-- A patch that changes every mutable field, moving the expense to the other
category with a different amount. -/
def c2Patch : TxPatch :=
  { amount := some 7500
    description := some "Dinner"
    txType := some .expense
    categoryId := some (some 2)
    currency := some "USD"
    date := some ⟨2024, 6, 1⟩
    payee := some (some "Cafe")
    account := some "credit"
    tags := some none
    recurring := some false
    recurringPeriod := some none }

/-- The fresh input carrying the patched values. -/
def c2Input2 : TxInput :=
  { amount := 7500
    description := "Dinner"
    txType := some .expense
    categoryId := some 2
    currency := "USD"
    date := some ⟨2024, 6, 1⟩
    payee := "Cafe"
    account := "credit"
    tags := ""
    recurring := false
    recurringPeriod := none }

/-- Witness for C2: a concrete create-update versus delete-recreate
equivalence, with both the amount and the category changing. -/
theorem c2_update_symmetry_witness :
    (0 : Money) < 7500 ∧
    (∃ s₁ s₂ s₁' s₃,
      createTx 1 c2Input ⟨2024, 5, 10⟩ none c2State = .ok s₁ ∧
      updateTx 1 c2State.nextTxId c2Patch s₁ = .ok s₂ ∧
      deleteTx 1 c2State.nextTxId s₁ = .ok s₁' ∧
      createTx 1 c2Input2 ⟨2024, 6, 1⟩ none s₁' = .ok s₃ ∧
      s₂.categories = s₃.categories) := by
  refine ⟨by decide, ?_⟩
  refine c2_update_symmetry 1 c2Input c2Input2 c2Patch ⟨2024, 5, 10⟩ ⟨2024, 6, 1⟩
    none none c2State 7500 "Dinner" .expense .expense (some 2) "USD" ⟨2024, 6, 1⟩
    (some "Cafe") "credit" none false none
    (by decide) rfl (by decide) ?_ (by decide) ?_
    rfl rfl rfl rfl rfl rfl rfl rfl rfl rfl rfl
    (by decide) (by decide) ?_ (by decide) ?_
    rfl rfl rfl rfl rfl rfl
  · intro cid h
    obtain rfl : (1 : Nat) = cid := by simpa [c2Input] using h
    decide
  · intro q h
    exact Option.noConfusion h
  · intro cid h
    obtain rfl : (2 : Nat) = cid := by simpa using h
    decide
  · intro q h
    exact Option.noConfusion h

/-! ### Claim C3 -/

/-- A state whose source category holds an expense dated outside the current
month: its stored `available_amount` (40000) differs from the fresh
current-month recomputation (50000) that the transfer performs first. -/
def c3CexState : LedgerState :=
  { categories :=
      [⟨1, 1, "A", 50000, 40000, "expense", "#dc3545"⟩,
       ⟨2, 1, "B", 20000, 20000, "expense", "#28a745"⟩]
    transactions :=
      [{ id := 1
         userId := 1
         categoryId := some 1
         amount := 10000
         currency := "KES"
         exchangeRate := none
         description := "Old expense"
         txType := .expense
         date := ⟨2024, 1, 15⟩
         payee := none
         account := "checking"
         tags := none
         recurring := false
         recurringPeriod := none }]
    nextTxId := 2 }

/-- Counterexample to C3 as stated: a valid transfer of 5000 between two
distinct same-user categories with sufficient funds after which the source's
`available_amount` is 45000 — it does not decrease by the transferred amount
(40000 - 5000 = 35000); it even increases, because `transfer_budget` first
resets both categories' `available_amount` to the current-month
recomputation (50000 here, the linked expense being dated in a past month)
before subtracting. -/
theorem c3_transfer_conservation_cex :
    transferBudget 1 1 2 5000 ⟨2024, 3, 10⟩ c3CexState =
      .ok { c3CexState with categories :=
        [⟨1, 1, "A", 45000, 45000, "expense", "#dc3545"⟩,
         ⟨2, 1, "B", 25000, 25000, "expense", "#28a745"⟩] } ∧
    ¬((45000 : Money) = 40000 - 5000) := by
  decide

/-- C3 (amended): for every valid transfer of a positive amount between two
distinct same-user categories whose stored `available_amount` is fresh
(equal to the current-month recomputation that the transfer performs before
checking funds) and whose source has sufficient funds, the sum of
`allocated_amount` over the two categories is conserved, the source's
available decreases by exactly the amount and the destination's increases by
exactly the amount. -/
theorem c3_transfer_conservation (uid fromId toId : Nat) (amount : Money)
    (today : Date) (s : LedgerState) (fc tc : Category)
    (hne : fromId ≠ toId) (hpos : 0 < amount)
    (hf : findCategory fromId uid s.categories = some fc)
    (ht : findCategory toId uid s.categories = some tc)
    (hfFresh : fc.available = fc.allocated -
      spentWindow fc.id (monthStart today) (monthEnd today) s.transactions)
    (htFresh : tc.available = tc.allocated -
      spentWindow tc.id (monthStart today) (monthEnd today) s.transactions)
    (hfunds : amount ≤ fc.available) :
    ∃ s' fc' tc',
      transferBudget uid fromId toId amount today s = .ok s' ∧
      findCategory fromId uid s'.categories = some fc' ∧
      findCategory toId uid s'.categories = some tc' ∧
      fc'.allocated + tc'.allocated = fc.allocated + tc.allocated ∧
      fc'.available = fc.available - amount ∧
      tc'.available = tc.available + amount := by
  have hf0 := hf
  have ht0 := ht
  unfold findCategory at hf0 ht0
  have hfp := List.find?_some hf0
  have htp := List.find?_some ht0
  simp only [Bool.and_eq_true, beq_iff_eq] at hfp htp
  obtain ⟨hfid, hfuid⟩ := hfp
  obtain ⟨htid, htuid⟩ := htp
  have hnlt : ¬(fc.allocated -
      spentWindow fc.id (monthStart today) (monthEnd today) s.transactions < amount) := by
    rw [← hfFresh]
    exact not_lt.mpr hfunds
  have hrun : transferBudget uid fromId toId amount today s = .ok
      { s with categories := transferResultCats uid fromId toId amount today s } := by
    unfold transferBudget
    rw [if_neg hne, if_neg (not_le.mpr hpos), hf, ht]
    dsimp only
    rw [if_neg hnlt]
  have hg1 : ∀ c, ((transferRecompute uid fromId toId today s.transactions) c).id = c.id ∧
      ((transferRecompute uid fromId toId today s.transactions) c).userId = c.userId := by
    intro c
    unfold transferRecompute recomputeAvailable
    split <;> exact ⟨rfl, rfl⟩
  have hg2 : ∀ c, ((transferApply uid fromId toId amount) c).id = c.id ∧
      ((transferApply uid fromId toId amount) c).userId = c.userId := by
    intro c
    unfold transferApply
    split
    · exact ⟨rfl, rfl⟩
    · split <;> exact ⟨rfl, rfl⟩
  have e1 : transferRecompute uid fromId toId today s.transactions fc = fc := by
    unfold transferRecompute
    rw [if_pos ⟨Or.inl hfid, hfuid⟩]
    unfold recomputeAvailable
    rw [← hfFresh]
  have e2 : transferRecompute uid fromId toId today s.transactions tc = tc := by
    unfold transferRecompute
    rw [if_pos ⟨Or.inr htid, htuid⟩]
    unfold recomputeAvailable
    rw [← htFresh]
  have e3 : transferApply uid fromId toId amount fc =
      { fc with available := fc.available - amount, allocated := fc.allocated - amount } := by
    unfold transferApply
    rw [if_pos ⟨hfid, hfuid⟩]
  have e4 : transferApply uid fromId toId amount tc =
      { tc with available := tc.available + amount, allocated := tc.allocated + amount } := by
    unfold transferApply
    rw [if_neg ?_, if_pos ⟨htid, htuid⟩]
    rintro ⟨h, -⟩
    rw [htid] at h
    exact hne h.symm
  have hfc' : findCategory fromId uid (transferResultCats uid fromId toId amount today s) =
      some { fc with available := fc.available - amount, allocated := fc.allocated - amount } := by
    unfold transferResultCats
    rw [findCategory_map _ _ _ _ hg2, findCategory_map _ _ _ _ hg1, hf,
      Option.map_some', Option.map_some', e1, e3]
  have htc' : findCategory toId uid (transferResultCats uid fromId toId amount today s) =
      some { tc with available := tc.available + amount, allocated := tc.allocated + amount } := by
    unfold transferResultCats
    rw [findCategory_map _ _ _ _ hg2, findCategory_map _ _ _ _ hg1, ht,
      Option.map_some', Option.map_some', e2, e4]
  refine ⟨_, _, _, hrun, hfc', htc', ?_, rfl, rfl⟩
  show fc.allocated - amount + (tc.allocated + amount) = fc.allocated + tc.allocated
  ring

/-- Witness for C3 (amended), the §8 transfer scenario: 100.00 moved from a
category with 300.00 available to one with 50.00 available. -/
def c3State : LedgerState :=
  { categories :=
      [⟨1, 1, "A", 30000, 30000, "expense", "#dc3545"⟩,
       ⟨2, 1, "B", 5000, 5000, "expense", "#28a745"⟩]
    transactions := []
    nextTxId := 1 }

theorem c3_transfer_conservation_witness :
    (0 : Money) < 10000 ∧
    (∃ s' fc' tc',
      transferBudget 1 1 2 10000 ⟨2024, 3, 10⟩ c3State = .ok s' ∧
      findCategory 1 1 s'.categories = some fc' ∧
      findCategory 2 1 s'.categories = some tc' ∧
      fc'.allocated + tc'.allocated = (30000 : Money) + 5000 ∧
      fc'.available = (30000 : Money) - 10000 ∧
      tc'.available = (5000 : Money) + 10000) :=
  ⟨by decide,
    c3_transfer_conservation 1 1 2 10000 ⟨2024, 3, 10⟩ c3State
      ⟨1, 1, "A", 30000, 30000, "expense", "#dc3545"⟩
      ⟨2, 1, "B", 5000, 5000, "expense", "#28a745"⟩
      (by decide) (by decide) (by decide) (by decide)
      (by decide) (by decide) (by decide)⟩

/-! ### Claim C5 -/

theorem daysInMonth_ge_28 (y m : Nat) : 28 ≤ daysInMonth y m := by
  unfold daysInMonth
  split
  · split <;> omega
  · split <;> omega

theorem addMonths_one_day (d : Date) (hd : d.day ≤ 28) :
    (d.addMonths 1).day = d.day := by
  unfold Date.addMonths
  exact min_eq_left (le_trans hd (daysInMonth_ge_28 _ _))

theorem addMonths_one_idx (d : Date) (h1 : 1 ≤ d.month) :
    (d.addMonths 1).year * 12 + ((d.addMonths 1).month - 1) =
      d.year * 12 + (d.month - 1) + 1 := by
  unfold Date.addMonths
  dsimp only
  omega

theorem addMonths_one_valid (d : Date) (hv : d.Valid) (hd : d.day ≤ 28) :
    (d.addMonths 1).Valid := by
  obtain ⟨h1, h2, h3, h4⟩ := hv
  have h28 := daysInMonth_ge_28 (d.addMonths 1).year (d.addMonths 1).month
  refine ⟨?_, ?_, ?_, ?_⟩
  · show 1 ≤ (d.addMonths 1).month
    unfold Date.addMonths
    dsimp only
    omega
  · show (d.addMonths 1).month ≤ 12
    unfold Date.addMonths
    dsimp only
    omega
  · rw [addMonths_one_day d hd]
    exact h3
  · rw [addMonths_one_day d hd]
    exact le_trans hd h28

/-- Twelve-at-a-time bookkeeping for monthly iteration of the scheduler's
`nextDate`: the linear month index advances by one per step, the day of
month is preserved (no clamping below day 29), and validity is preserved. -/
theorem iterateNext_monthly_spec (n : Nat) (d : Date) (hv : d.Valid)
    (hd : d.day ≤ 28) :
    (Date.iterateNext .monthly n d).year * 12 +
        ((Date.iterateNext .monthly n d).month - 1) =
      d.year * 12 + (d.month - 1) + n ∧
    (Date.iterateNext .monthly n d).day = d.day ∧
    (Date.iterateNext .monthly n d).Valid := by
  induction n generalizing d with
  | zero => exact ⟨by simp [Date.iterateNext], rfl, hv⟩
  | succ n ih =>
    have hstep : Date.iterateNext .monthly (n + 1) d =
        Date.iterateNext .monthly n (d.addMonths 1) := rfl
    have hd' : (d.addMonths 1).day ≤ 28 := by
      rw [addMonths_one_day d hd]
      exact hd
    obtain ⟨e1, e2, e3⟩ := ih (d.addMonths 1) (addMonths_one_valid d hv hd) hd'
    refine ⟨?_, ?_, ?_⟩
    · rw [hstep, e1, addMonths_one_idx d hv.1]
      omega
    · rw [hstep, e2, addMonths_one_day d hd]
    · rw [hstep]
      exact e3

/-- Counterexample to C5 as stated: twelve monthly applications of
`get_next_occurrence_date` from 2024-01-31 land on 2025-01-29, not on the
anchor date one year later — `relativedelta` clamps Jan 31 to Feb 29 and the
original day of month is lost. -/
theorem c5_calendar_cex :
    Date.iterateNext .monthly 12 ⟨2024, 1, 31⟩ = ⟨2025, 1, 29⟩ ∧
    ¬(Date.iterateNext .monthly 12 ⟨2024, 1, 31⟩ = ⟨2025, 1, 31⟩) := by
  decide

/-- C5 (amended): `nextDate(2024-01-31, "monthly")` yields 2024-02-29, a
valid end-of-February date (not March 2 and not an error), and for every
valid anchor date whose day of month is at most 28, applying `nextDate`
twelve times with `"monthly"` lands on the same anchor date one year later. -/
theorem c5_calendar_correctness :
    (getNextOccurrenceDate ⟨2024, 1, 31⟩ .monthly = ⟨2024, 2, 29⟩ ∧
      Date.Valid ⟨2024, 2, 29⟩) ∧
    ∀ d : Date, d.Valid → d.day ≤ 28 →
      Date.iterateNext .monthly 12 d = ⟨d.year + 1, d.month, d.day⟩ := by
  refine ⟨⟨by decide, by decide⟩, ?_⟩
  intro d hv hd
  obtain ⟨e1, e2, e3⟩ := iterateNext_monthly_spec 12 d hv hd
  obtain ⟨b1, b2, -, -⟩ := e3
  obtain ⟨a1, a2, -, -⟩ := hv
  have hy : (Date.iterateNext .monthly 12 d).year = d.year + 1 := by omega
  have hm : (Date.iterateNext .monthly 12 d).month = d.month := by omega
  have heta : Date.iterateNext .monthly 12 d =
      ⟨(Date.iterateNext .monthly 12 d).year, (Date.iterateNext .monthly 12 d).month,
        (Date.iterateNext .monthly 12 d).day⟩ := rfl
  rw [heta, hy, hm, e2]

/-- Witness for C5 (amended) at the anchor 2023-05-15. -/
theorem c5_calendar_correctness_witness :
    (Date.Valid ⟨2023, 5, 15⟩ ∧ (15 : Nat) ≤ 28) ∧
    Date.iterateNext .monthly 12 ⟨2023, 5, 15⟩ = ⟨2024, 5, 15⟩ :=
  ⟨⟨by decide, by decide⟩,
    c5_calendar_correctness.2 ⟨2023, 5, 15⟩ (by decide) (by decide)⟩

/-! ### Lemmas about the catch-up loop -/

theorem countOccLoop_le (p : Period) (today : Date) :
    ∀ fuel check n, (countOccLoop p today fuel check n).1 ≤ max n 365 := by
  intro fuel
  induction fuel with
  | zero => intro check n; exact le_max_left n 365
  | succ fuel ih =>
    intro check n
    unfold countOccLoop
    split
    · dsimp only
      split
      · exact le_max_right n 365
      · next hle =>
        have h1 := ih (getNextOccurrenceDate check p) (n + 1)
        have h2 : n + 1 ≤ 365 := by omega
        calc (countOccLoop p today fuel (getNextOccurrenceDate check p) (n + 1)).1
            ≤ max (n + 1) 365 := h1
          _ = 365 := max_eq_right h2
          _ ≤ max n 365 := le_max_right n 365
    · exact le_max_left n 365

theorem countOccLoop_fuel_stable (p : Period) (today : Date) :
    ∀ f₁ f₂ check n, n ≤ 365 → 366 ≤ f₁ + n → 366 ≤ f₂ + n →
      countOccLoop p today f₁ check n = countOccLoop p today f₂ check n := by
  intro f₁
  induction f₁ with
  | zero =>
    intro f₂ check n hn h1 h2
    omega
  | succ f₁ ih =>
    intro f₂ check n hn h1 h2
    cases f₂ with
    | zero => omega
    | succ f₂ =>
      show countOccLoop p today (f₁ + 1) check n = countOccLoop p today (f₂ + 1) check n
      unfold countOccLoop
      split
      · dsimp only
        split
        · rfl
        · next hle =>
          exact ih f₂ (getNextOccurrenceDate check p) (n + 1) (by omega) (by omega) (by omega)
      · rfl

/-- When the anchor is at most 365 periods behind `today`, the counting loop
finds the exact catch-up count: the cursor lands on the `count`-fold
iteration of `nextDate`, which is no longer due. -/
theorem countOccLoop_spec (p : Period) (today : Date) :
    ∀ fuel check n, fuel + n = 366 →
      shouldCreateOccurrence (Date.iterateNext p (fuel - 1) check) p today = false →
      (countOccLoop p today fuel check n).2 =
        Date.iterateNext p ((countOccLoop p today fuel check n).1 - n) check ∧
      shouldCreateOccurrence (countOccLoop p today fuel check n).2 p today = false ∧
      n ≤ (countOccLoop p today fuel check n).1 := by
  intro fuel
  induction fuel with
  | zero =>
    intro check n hfuel hfar
    refine ⟨?_, ?_, le_refl n⟩
    · show check = Date.iterateNext p (n - n) check
      rw [Nat.sub_self]
      rfl
    · simpa using hfar
  | succ fuel ih =>
    intro check n hfuel hfar
    unfold countOccLoop
    split
    · next hdue =>
      dsimp only
      split
      · next hcap =>
        exfalso
        have hfz : fuel = 0 := by omega
        rw [hfz] at hfar
        simp only [Nat.sub_self] at hfar
        rw [show Date.iterateNext p 0 check = check from rfl] at hfar
        rw [hdue] at hfar
        exact Bool.noConfusion hfar
      · next hcap =>
        have hfge : 1 ≤ fuel := by omega
        have hfar' : shouldCreateOccurrence
            (Date.iterateNext p (fuel - 1) (getNextOccurrenceDate check p)) p today = false := by
          have hshift : Date.iterateNext p (fuel - 1) (getNextOccurrenceDate check p) =
              Date.iterateNext p ((fuel - 1) + 1) check := rfl
          rw [hshift, show (fuel - 1) + 1 = (fuel + 1) - 1 from by omega]
          exact hfar
        obtain ⟨e1, e2, e3⟩ := ih (getNextOccurrenceDate check p) (n + 1) (by omega) hfar'
        refine ⟨?_, e2, by omega⟩
        rw [e1]
        have hk := e3
        have : (countOccLoop p today fuel (getNextOccurrenceDate check p) (n + 1)).1 - n =
            ((countOccLoop p today fuel (getNextOccurrenceDate check p) (n + 1)).1 - (n + 1)) + 1 := by
          omega
        rw [this]
        rfl
    · next hdue =>
      refine ⟨?_, by simpa using hdue, le_refl n⟩
      show check = Date.iterateNext p (n - n) check
      rw [Nat.sub_self]
      rfl

theorem createOccLoop_spec (p : Period) :
    ∀ k (t : Tx) (acc : List Tx) (nid : Nat),
      (createOccLoop p k t acc nid).1 = { t with date := Date.iterateNext p k t.date } ∧
      (createOccLoop p k t acc nid).2.1.length = acc.length + k ∧
      (createOccLoop p k t acc nid).2.2 = nid + k ∧
      (∀ occ ∈ (createOccLoop p k t acc nid).2.1, occ ∈ acc ∨ occ.recurring = false) := by
  intro k
  induction k with
  | zero =>
    intro t acc nid
    refine ⟨rfl, by simp [createOccLoop], rfl, ?_⟩
    intro occ h
    exact Or.inl (List.mem_reverse.mp h)
  | succ k ih =>
    intro t acc nid
    obtain ⟨e1, e2, e3, e4⟩ := ih { t with date := getNextOccurrenceDate t.date p }
      (mkOccurrence t nid (getNextOccurrenceDate t.date p) :: acc) (nid + 1)
    have hred : createOccLoop p (k + 1) t acc nid =
        createOccLoop p k { t with date := getNextOccurrenceDate t.date p }
          (mkOccurrence t nid (getNextOccurrenceDate t.date p) :: acc) (nid + 1) := rfl
    rw [hred]
    refine ⟨?_, ?_, ?_, ?_⟩
    · rw [e1,
        show Date.iterateNext p (k + 1) t.date =
          Date.iterateNext p k (getNextOccurrenceDate t.date p) from rfl]
    · rw [e2]
      simp
      omega
    · rw [e3]
      omega
    · intro occ h
      rcases e4 occ h with h' | h'
      · rcases List.mem_cons.mp h' with h'' | h''
        · right
          rw [h'']
          rfl
        · exact Or.inl h''
      · exact Or.inr h'

/-- `create_recurring_occurrence` applied `k` times advances the template's
anchor to the `k`-fold `nextDate` iterate, creates `k` non-recurring rows and
consumes `k` ids. -/
theorem createOccurrences_spec (p : Period) :
    ∀ k nextId (t : Tx),
      (createOccurrences p nextId t k).1 = { t with date := Date.iterateNext p k t.date } ∧
      (createOccurrences p nextId t k).2.1.length = k ∧
      (createOccurrences p nextId t k).2.2 = nextId + k ∧
      (∀ occ ∈ (createOccurrences p nextId t k).2.1, occ.recurring = false) := by
  intro k nextId t
  obtain ⟨e1, e2, e3, e4⟩ := createOccLoop_spec p k t [] nextId
  refine ⟨e1, by simpa using e2, e3, ?_⟩
  intro occ h
  rcases e4 occ h with h' | h'
  · exact absurd h' (List.not_mem_nil occ)
  · exact h'

/-! ### Claim C9 -/

/-- C9: the catch-up loop is capped — one run materializes at most 365
occurrences per template (`count ≤ 365`) — and terminates: running the loop
with any fuel beyond the 366 body iterations the cap admits returns the very
same result, i.e. the `while` loop always exits within the cap. -/
theorem c9_catchup_bounded :
    (∀ (today : Date) (dryRun : Bool) (nextId : Nat) (t : Tx),
      (processOne today dryRun nextId t).count ≤ 365) ∧
    (∀ (p : Period) (today check : Date) (extra : Nat),
      countOccLoop p today (366 + extra) check 0 = countOccLoop p today 366 check 0) := by
  constructor
  · intro today dryRun nextId t
    unfold processOne
    cases hp : t.recurringPeriod with
    | none => exact Nat.zero_le 365
    | some p =>
      dsimp only
      have hb : (countOccLoop p today 366 t.date 0).1 ≤ 365 := by
        simpa using countOccLoop_le p today 366 t.date 0
      split
      · split
        · exact hb
        · rcases hcr : createOccurrences p nextId t
              (countOccLoop p today 366 t.date 0).1 with ⟨t1, occs, nid⟩
          exact hb
      · exact Nat.zero_le 365
  · intro p today check extra
    exact countOccLoop_fuel_stable p today (366 + extra) 366 check 0
      (by omega) (by omega) (by omega)

/-! ### Claim C4 -/

/-- A template that will produce nothing when processed: either not recurring,
or its period is invalid (the per-template `ValueError` path), or its next
occurrence date is past `today`. -/
def TemplateQuiet (today : Date) (t : Tx) : Prop :=
  t.recurring = true →
    ∀ p, t.recurringPeriod = some p → shouldCreateOccurrence t.date p today = false

instance (today : Date) (t : Tx) : Decidable (TemplateQuiet today t) := by
  unfold TemplateQuiet; infer_instance

theorem processOne_of_quiet (today : Date) (dryRun : Bool) (nextId : Nat) (t : Tx)
    (hq : ∀ p, t.recurringPeriod = some p →
      shouldCreateOccurrence t.date p today = false) :
    processOne today dryRun nextId t = ⟨t, [], 0, nextId⟩ := by
  unfold processOne
  cases hp : t.recurringPeriod with
  | none => rfl
  | some p =>
    dsimp only
    rw [hq p hp]
    simp

theorem processAllAux_of_quiet (today : Date) (dryRun : Bool) :
    ∀ (l : List Tx) (nextId : Nat), (∀ t ∈ l, TemplateQuiet today t) →
      processAllAux today dryRun nextId l = (l, [], 0, nextId) := by
  intro l
  induction l with
  | nil => intro nextId h; rfl
  | cons t ts ih =>
    intro nextId h
    unfold processAllAux
    by_cases hr : t.recurring
    · rw [if_pos hr, processOne_of_quiet today dryRun nextId t
        (h t (List.mem_cons_self t ts) hr)]
      dsimp only
      rw [ih nextId (fun u hu => h u (List.mem_cons_of_mem t hu))]
      simp
    · rw [if_neg hr, ih nextId (fun u hu => h u (List.mem_cons_of_mem t hu))]

/-- Processing one template that is at most 365 periods behind leaves a quiet
template and only non-recurring occurrences. -/
theorem processOne_quiet_after (today : Date) (dryRun : Bool) (nextId : Nat) (t : Tx)
    (hcap : ∀ p, t.recurringPeriod = some p →
      shouldCreateOccurrence (Date.iterateNext p 365 t.date) p today = false) :
    TemplateQuiet today (processOne today dryRun nextId t).template ∧
    ∀ occ ∈ (processOne today dryRun nextId t).created, TemplateQuiet today occ := by
  unfold processOne
  cases hp : t.recurringPeriod with
  | none =>
    dsimp only
    refine ⟨?_, ?_⟩
    · intro hrec p hp'
      rw [hp] at hp'
      exact Option.noConfusion hp'
    · intro occ hocc
      exact absurd hocc (List.not_mem_nil occ)
  | some p =>
    dsimp only
    have hquiet_adv : shouldCreateOccurrence
        (Date.iterateNext p (countOccLoop p today 366 t.date 0).1 t.date) p today = false := by
      obtain ⟨f1, f2, -⟩ := countOccLoop_spec p today 366 t.date 0
        (by omega) (by simpa using hcap p hp)
      rw [Nat.sub_zero] at f1
      rw [← f1]
      exact f2
    split
    · next hdue =>
      split
      · refine ⟨?_, ?_⟩
        · intro hrec q hq
          dsimp only at hq ⊢
          obtain rfl : p = q := by simpa using hq
          exact hquiet_adv
        · intro occ hocc
          exact absurd hocc (List.not_mem_nil occ)
      · rcases hcr : createOccurrences p nextId t
            (countOccLoop p today 366 t.date 0).1 with ⟨t1, occs, nid⟩
        dsimp only
        obtain ⟨ea, -, -, ed⟩ := createOccurrences_spec p
          (countOccLoop p today 366 t.date 0).1 nextId t
        rw [hcr] at ea ed
        dsimp only at ea ed
        refine ⟨?_, ?_⟩
        · show TemplateQuiet today t1
          intro hrec q hq
          rw [ea] at hq ⊢
          dsimp only at hq ⊢
          rw [hp] at hq
          obtain rfl : p = q := by simpa using hq
          exact hquiet_adv
        · show ∀ occ ∈ occs, TemplateQuiet today occ
          intro occ hocc hrec
          rw [ed occ hocc] at hrec
          exact Bool.noConfusion hrec
    · next hdue =>
      refine ⟨?_, ?_⟩
      · intro hrec q hq
        rw [hp] at hq
        obtain rfl : p = q := by simpa using hq
        simpa using hdue
      · intro occ hocc
        exact absurd hocc (List.not_mem_nil occ)

/-- After a catch-up pass over a list of templates none of which is more than
365 periods behind, every row of the resulting table (updated templates and
created occurrences alike) is quiet. -/
theorem processAllAux_quiet_after (today : Date) (dryRun : Bool) :
    ∀ (l : List Tx) (nextId : Nat),
      (∀ t ∈ l, t.recurring = true → ∀ p, t.recurringPeriod = some p →
        shouldCreateOccurrence (Date.iterateNext p 365 t.date) p today = false) →
      ∀ t' ∈ (processAllAux today dryRun nextId l).1 ++
          (processAllAux today dryRun nextId l).2.1,
        TemplateQuiet today t' := by
  intro l
  induction l with
  | nil =>
    intro nextId hcap t' ht'
    simp [processAllAux] at ht'
  | cons t ts ih =>
    intro nextId hcap t' ht'
    have hcap_t := hcap t (List.mem_cons_self t ts)
    have hcap_ts : ∀ u ∈ ts, u.recurring = true → ∀ p, u.recurringPeriod = some p →
        shouldCreateOccurrence (Date.iterateNext p 365 u.date) p today = false :=
      fun u hu => hcap u (List.mem_cons_of_mem t hu)
    unfold processAllAux at ht'
    by_cases hr : t.recurring
    · rw [if_pos hr] at ht'
      rcases hone : processOne today dryRun nextId t with ⟨t1, created1, cnt1, nid1⟩
      rw [hone] at ht'
      dsimp only at ht'
      rcases haux : processAllAux today dryRun nid1 ts with ⟨ts', created2, cnt2, nid2⟩
      rw [haux] at ht'
      dsimp only at ht'
      have hhead := processOne_quiet_after today dryRun nextId t (hcap_t hr)
      rw [hone] at hhead
      dsimp only at hhead
      have hrest : ∀ u ∈ ts' ++ created2, TemplateQuiet today u := by
        have := ih nid1 hcap_ts
        rw [haux] at this
        exact this
      rcases List.mem_append.mp ht' with h | h
      · rcases List.mem_cons.mp h with h | h
        · rw [h]
          exact hhead.1
        · exact hrest t' (List.mem_append.mpr (Or.inl h))
      · rcases List.mem_append.mp h with h | h
        · exact hhead.2 t' h
        · exact hrest t' (List.mem_append.mpr (Or.inr h))
    · rw [if_neg hr] at ht'
      rcases haux : processAllAux today dryRun nextId ts with ⟨ts', created2, cnt2, nid2⟩
      rw [haux] at ht'
      dsimp only at ht'
      have hrest : ∀ u ∈ ts' ++ created2, TemplateQuiet today u := by
        have := ih nextId hcap_ts
        rw [haux] at this
        exact this
      rcases List.mem_append.mp ht' with h | h
      · rcases List.mem_cons.mp h with h | h
        · rw [h]
          intro hrec
          exact absurd hrec hr
        · exact hrest t' (List.mem_append.mpr (Or.inl h))
      · exact hrest t' (List.mem_append.mpr (Or.inr h))

/-- `processAll` over a concatenation of template lists processes the two
parts independently, threading the id counter. -/
theorem processAllAux_append (today : Date) (dr : Bool) :
    ∀ (l1 l2 : List Tx) (nid : Nat) ts1 cr1 c1 n1 ts2 cr2 c2 n2,
      processAllAux today dr nid l1 = (ts1, cr1, c1, n1) →
      processAllAux today dr n1 l2 = (ts2, cr2, c2, n2) →
      processAllAux today dr nid (l1 ++ l2) = (ts1 ++ ts2, cr1 ++ cr2, c1 + c2, n2) := by
  intro l1
  induction l1 with
  | nil =>
    intro l2 nid ts1 cr1 c1 n1 ts2 cr2 c2 n2 h1 h2
    unfold processAllAux at h1
    simp only [Prod.mk.injEq] at h1
    obtain ⟨h1a, h1b, h1c, h1d⟩ := h1
    subst h1a h1b h1c h1d
    simpa using h2
  | cons t ts ih =>
    intro l2 nid ts1 cr1 c1 n1 ts2 cr2 c2 n2 h1 h2
    unfold processAllAux at h1 ⊢
    show (if t.recurring = true then
        match processOne today dr nid t with
        | ⟨t1, created1, cnt1, nid1⟩ =>
          match processAllAux today dr nid1 (ts ++ l2) with
          | (ts', created, cnt, nid) => (t1 :: ts', created1 ++ created, cnt1 + cnt, nid)
      else
        match processAllAux today dr nid (ts ++ l2) with
        | (ts', created, cnt, nid) => (t :: ts', created, cnt, nid)) =
      (ts1 ++ ts2, cr1 ++ cr2, c1 + c2, n2)
    by_cases hr : t.recurring
    · rw [if_pos hr] at h1 ⊢
      rcases hone : processOne today dr nid t with ⟨t1, cc1, k1, m1⟩
      rw [hone] at h1
      dsimp only at h1 ⊢
      rcases haux : processAllAux today dr m1 ts with ⟨a2, b2, d2, e2⟩
      rw [haux] at h1
      dsimp only at h1
      simp only [Prod.mk.injEq] at h1
      obtain ⟨h1a, h1b, h1c, h1d⟩ := h1
      subst h1a h1b h1c h1d
      rw [ih l2 m1 a2 b2 d2 e2 ts2 cr2 c2 n2 haux h2]
      simp [List.append_assoc, Nat.add_assoc]
    · rw [if_neg hr] at h1 ⊢
      rcases haux : processAllAux today dr nid ts with ⟨a2, b2, d2, e2⟩
      rw [haux] at h1
      dsimp only at h1
      simp only [Prod.mk.injEq] at h1
      obtain ⟨h1a, h1b, h1c, h1d⟩ := h1
      subst h1a h1b h1c h1d
      rw [ih l2 nid a2 b2 d2 e2 ts2 cr2 c2 n2 haux h2]
      simp

/-- A daily template anchored 2023-01-01, 517 periods behind 2024-06-01:
far enough behind to hit the 365-occurrence safety cap. -/
def c4CexTemplate : Tx :=
  { id := 1
    userId := 1
    categoryId := none
    amount := 100
    currency := "KES"
    exchangeRate := none
    description := "d"
    txType := .expense
    date := ⟨2023, 1, 1⟩
    payee := none
    account := "checking"
    tags := none
    recurring := true
    recurringPeriod := some .daily }

def c4CexState : LedgerState :=
  { categories := []
    transactions := [c4CexTemplate]
    nextTxId := 2 }

/-- Iteration of `nextDate` splits over addition. -/
theorem iterateNext_add (p : Period) :
    ∀ a b (d : Date),
      Date.iterateNext p (a + b) d = Date.iterateNext p b (Date.iterateNext p a d) := by
  intro a
  induction a with
  | zero =>
    intro b d
    rw [Nat.zero_add]
    rfl
  | succ a ih =>
    intro b d
    rw [show a + 1 + b = (a + b) + 1 from by omega]
    show Date.iterateNext p (a + b) (getNextOccurrenceDate d p) = _
    rw [ih b (getNextOccurrenceDate d p)]
    rfl

set_option maxRecDepth 40000 in
/-- Counterexample to C4 as stated: for a daily template anchored 517 days
before `asOf` 2024-06-01, the first non-dry run materializes only the capped
365 occurrences, advancing the anchor only to 2024-01-01; the immediately
repeated run with the same `asOf` creates 152 further occurrences, not
zero. -/
theorem c4_idempotent_scheduling_cex :
    (processAll ⟨2024, 6, 1⟩ false c4CexState).2 = 365 ∧
    (processAll ⟨2024, 6, 1⟩ false (processAll ⟨2024, 6, 1⟩ false c4CexState).1).2 = 152 ∧
    (152 : Nat) ≠ 0 := by
  have hper : c4CexTemplate.recurringPeriod = some .daily := rfl
  have hk1 : (countOccLoop .daily ⟨2024, 6, 1⟩ 366 c4CexTemplate.date 0).1 = 365 := by
    decide
  have hdue1 : shouldCreateOccurrence c4CexTemplate.date .daily ⟨2024, 6, 1⟩ = true := by
    decide
  have hs1 : Date.iterateNext .daily 100 c4CexTemplate.date = ⟨2023, 4, 11⟩ := by decide
  have hs2 : Date.iterateNext .daily 100 (⟨2023, 4, 11⟩ : Date) = ⟨2023, 7, 20⟩ := by decide
  have hs3 : Date.iterateNext .daily 100 (⟨2023, 7, 20⟩ : Date) = ⟨2023, 10, 28⟩ := by decide
  have hs4 : Date.iterateNext .daily 65 (⟨2023, 10, 28⟩ : Date) = ⟨2024, 1, 1⟩ := by decide
  have hiter : Date.iterateNext .daily 365 c4CexTemplate.date = ⟨2024, 1, 1⟩ := by
    rw [show (365 : Nat) = 100 + 265 from by omega, iterateNext_add, hs1,
      show (265 : Nat) = 100 + 165 from by omega, iterateNext_add, hs2,
      show (165 : Nat) = 100 + 65 from by omega, iterateNext_add, hs3, hs4]
  rcases hcr : createOccurrences .daily 2 c4CexTemplate
      (countOccLoop .daily ⟨2024, 6, 1⟩ 366 c4CexTemplate.date 0).1 with ⟨t1, occs, nid1⟩
  obtain ⟨ea, -, ec, ed⟩ := createOccurrences_spec .daily
    ((countOccLoop .daily ⟨2024, 6, 1⟩ 366 c4CexTemplate.date 0).1) 2 c4CexTemplate
  rw [hcr] at ea ec ed
  dsimp only at ea ec ed
  rw [hk1, hiter] at ea
  have hone : processOne ⟨2024, 6, 1⟩ false 2 c4CexTemplate = ⟨t1, occs, 365, nid1⟩ := by
    unfold processOne
    rw [hper]
    dsimp only
    rw [if_pos hdue1, if_neg (show ¬((false : Bool) = true) from by decide), hcr, hk1]
  have hnil1 : processAllAux ⟨2024, 6, 1⟩ false nid1 [] = ([], [], 0, nid1) := rfl
  have haux1 : processAllAux ⟨2024, 6, 1⟩ false 2 [c4CexTemplate] = ([t1], occs, 365, nid1) := by
    unfold processAllAux
    rw [if_pos (show c4CexTemplate.recurring = true from rfl), hone]
    dsimp only
    rw [hnil1]
    simp
  have hrun1 : processAll ⟨2024, 6, 1⟩ false c4CexState =
      ({ c4CexState with transactions := [t1] ++ occs, nextTxId := nid1 }, 365) := by
    unfold processAll
    rw [show c4CexState.nextTxId = 2 from rfl,
      show c4CexState.transactions = [c4CexTemplate] from rfl, haux1]
  subst ea
  refine ⟨by rw [hrun1], ?_, by decide⟩
  have hk2 : (countOccLoop .daily ⟨2024, 6, 1⟩ 366
      ({ c4CexTemplate with date := (⟨2024, 1, 1⟩ : Date) } : Tx).date 0).1 = 152 := by
    decide
  have hdue2 : shouldCreateOccurrence
      ({ c4CexTemplate with date := (⟨2024, 1, 1⟩ : Date) } : Tx).date .daily
      ⟨2024, 6, 1⟩ = true := by decide
  rcases hcr2 : createOccurrences .daily nid1
      { c4CexTemplate with date := (⟨2024, 1, 1⟩ : Date) }
      (countOccLoop .daily ⟨2024, 6, 1⟩ 366
        ({ c4CexTemplate with date := (⟨2024, 1, 1⟩ : Date) } : Tx).date 0).1
      with ⟨t2, occs2, nid2⟩
  have hone2 : processOne ⟨2024, 6, 1⟩ false nid1
      { c4CexTemplate with date := (⟨2024, 1, 1⟩ : Date) } = ⟨t2, occs2, 152, nid2⟩ := by
    unfold processOne
    rw [show ({ c4CexTemplate with date := (⟨2024, 1, 1⟩ : Date) } : Tx).recurringPeriod =
      some .daily from rfl]
    dsimp only
    rw [if_pos hdue2, if_neg (show ¬((false : Bool) = true) from by decide), hcr2, hk2]
  have hqocc : ∀ x ∈ occs, TemplateQuiet ⟨2024, 6, 1⟩ x := by
    intro x hx hrec
    rw [ed x hx] at hrec
    exact Bool.noConfusion hrec
  have haux2 : processAllAux ⟨2024, 6, 1⟩ false nid1
      ({ c4CexTemplate with date := (⟨2024, 1, 1⟩ : Date) } :: occs) =
      (t2 :: occs, occs2 ++ [], 152 + 0, nid2) := by
    unfold processAllAux
    rw [if_pos (show ({ c4CexTemplate with date := (⟨2024, 1, 1⟩ : Date) } : Tx).recurring =
      true from rfl), hone2]
    dsimp only
    rw [processAllAux_of_quiet ⟨2024, 6, 1⟩ false occs nid2 hqocc]
  rw [hrun1]
  show (processAll ⟨2024, 6, 1⟩ false
    { c4CexState with
      transactions := [{ c4CexTemplate with date := (⟨2024, 1, 1⟩ : Date) }] ++ occs
      nextTxId := nid1 }).2 = 152
  unfold processAll
  dsimp only
  rw [show ([{ c4CexTemplate with date := (⟨2024, 1, 1⟩ : Date) }] ++ occs : List Tx) =
    { c4CexTemplate with date := (⟨2024, 1, 1⟩ : Date) } :: occs from rfl, haux2]

/-- C4 (amended): running `processAll(asOf, dryRun=false)` twice in a row
with the same `asOf` creates occurrences only on the first run, provided no
template is more than 365 periods behind `asOf` (so the 365-occurrence
safety cap is not hit on the first run); each materialized occurrence
advances the template's anchor to the occurrence date, leaving every
template past due only by less than one period. -/
theorem c4_idempotent_scheduling (today : Date) (s : LedgerState)
    (hcap : ∀ t ∈ s.transactions, t.recurring = true →
      ∀ p, t.recurringPeriod = some p →
        shouldCreateOccurrence (Date.iterateNext p 365 t.date) p today = false) :
    (processAll today false (processAll today false s).1).2 = 0 := by
  rcases h1 : processAllAux today false s.nextTxId s.transactions
    with ⟨txs1, created1, cnt1, nid1⟩
  have hinner : processAll today false s =
      ({ s with transactions := txs1 ++ created1, nextTxId := nid1 }, cnt1) := by
    unfold processAll
    rw [h1]
  have hquiet : ∀ t' ∈ txs1 ++ created1, TemplateQuiet today t' := by
    have := processAllAux_quiet_after today false s.transactions s.nextTxId hcap
    rw [h1] at this
    exact this
  rw [hinner]
  unfold processAll
  dsimp only
  rw [processAllAux_of_quiet today false (txs1 ++ created1) nid1 hquiet]

/-- The §8 scenario template: monthly, anchored 2024-01-15, processed with
`asOf` 2024-04-20 (three due occurrences, far below the cap). -/
def c4State : LedgerState :=
  { categories := []
    transactions :=
      [{ id := 1
         userId := 1
         categoryId := none
         amount := 5000
         currency := "KES"
         exchangeRate := none
         description := "Rent"
         txType := .expense
         date := ⟨2024, 1, 15⟩
         payee := none
         account := "checking"
         tags := none
         recurring := true
         recurringPeriod := some .monthly }]
    nextTxId := 2 }

set_option maxRecDepth 40000 in
/-- Witness for C4 (amended): the §8 monthly template is only three periods
behind, far below the cap, so the second run creates nothing. -/
theorem c4_idempotent_scheduling_witness :
    (processAll ⟨2024, 4, 20⟩ false (processAll ⟨2024, 4, 20⟩ false c4State).1).2 = 0 := by
  refine c4_idempotent_scheduling ⟨2024, 4, 20⟩ c4State ?_
  intro t ht hrec p hp
  have hm1 : Date.iterateNext .monthly 100 (⟨2024, 1, 15⟩ : Date) = ⟨2032, 5, 15⟩ := by decide
  have hm2 : Date.iterateNext .monthly 100 (⟨2032, 5, 15⟩ : Date) = ⟨2040, 9, 15⟩ := by decide
  have hm3 : Date.iterateNext .monthly 100 (⟨2040, 9, 15⟩ : Date) = ⟨2049, 1, 15⟩ := by decide
  have hm4 : Date.iterateNext .monthly 65 (⟨2049, 1, 15⟩ : Date) = ⟨2054, 6, 15⟩ := by decide
  obtain rfl : t = c4State.transactions.head (by decide) := by
    have h : c4State.transactions = [c4State.transactions.head (by decide)] := rfl
    rw [h] at ht
    simpa using ht
  obtain rfl : Period.monthly = p := by
    have : (c4State.transactions.head (by decide)).recurringPeriod = some .monthly := rfl
    rw [this] at hp
    simpa using hp
  rw [show (c4State.transactions.head (by decide)).date = (⟨2024, 1, 15⟩ : Date) from rfl]
  rw [show (365 : Nat) = 100 + 265 from by omega, iterateNext_add, hm1,
    show (265 : Nat) = 100 + 165 from by omega, iterateNext_add, hm2,
    show (165 : Nat) = 100 + 65 from by omega, iterateNext_add, hm3, hm4]
  decide

/-! ### Claim C7 -/

def c7Template : Tx :=
  { id := 1
    userId := 1
    categoryId := none
    amount := 5000
    currency := "KES"
    exchangeRate := none
    description := "Rent"
    txType := .expense
    date := ⟨2024, 1, 15⟩
    payee := none
    account := "checking"
    tags := none
    recurring := true
    recurringPeriod := some .monthly }

def c7State : LedgerState :=
  { categories := []
    transactions := [c7Template]
    nextTxId := 2 }

/-- C7 fails on the code: a dry run of `processAll` over a monthly template
anchored 2024-01-15 with `asOf` 2024-04-20 reports the three occurrences and
creates no transaction row, but it advances the template's anchor
(`transaction_date`) to 2024-04-15 — line 136 of
src/services/recurring_service.py assigns `template.transaction_date =
next_date` in the dry-run branch and nothing restores or rolls it back — so
the template state after the dry run is not identical to its state before. -/
theorem c7_dry_run_mutates_anchor :
    (processAll ⟨2024, 4, 20⟩ true c7State).2 = 3 ∧
    (processAll ⟨2024, 4, 20⟩ true c7State).1.transactions =
      [{ c7Template with date := ⟨2024, 4, 15⟩ }] ∧
    ¬((processAll ⟨2024, 4, 20⟩ true c7State).1.transactions = c7State.transactions) := by
  decide

/-! ### Reconciliation lemmas -/

theorem toggleItem_ok_inv {uid itemId now : Nat} {st st' : ReconState}
    (h : toggleItem uid itemId now st = .ok st') :
    st.recon.userId = uid ∧ st.recon.reconciled = false ∧
    ∃ item, st.items.find? (fun it => it.id == itemId) = some item ∧
      st' = calculateBalances now { st with items := toggleItems itemId st.items } := by
  unfold toggleItem at h
  split at h
  · exact absurd h (by simp)
  · next hne =>
    have huid : st.recon.userId = uid := not_ne_iff.mp hne
    split at h
    · exact absurd h (by simp)
    · next hrec =>
      have hrec' : st.recon.reconciled = false := by
        simpa using hrec
      split at h
      · exact absurd h (by simp)
      · next item hfind =>
        exact ⟨huid, hrec', item, hfind, by simpa using h.symm⟩

theorem calculateBalances_fields (now : Nat) (st : ReconState) :
    (calculateBalances now st).items = st.items ∧
    (calculateBalances now st).transactions = st.transactions ∧
    (calculateBalances now st).recon.userId = st.recon.userId ∧
    (calculateBalances now st).recon.statementBalance = st.recon.statementBalance ∧
    (calculateBalances now st).recon.bookBalance = clearedTotal st.transactions st.items ∧
    (calculateBalances now st).recon.difference =
      st.recon.statementBalance - clearedTotal st.transactions st.items := by
  unfold calculateBalances
  dsimp only
  split <;> exact ⟨rfl, rfl, rfl, rfl, rfl, rfl⟩

theorem calculateBalances_reconciled (now : Nat) (st : ReconState)
    (h : st.recon.reconciled = false) :
    ((calculateBalances now st).recon.reconciled = true ↔
      st.recon.statementBalance - clearedTotal st.transactions st.items = 0) ∧
    ((calculateBalances now st).recon.reconciled = true →
      (calculateBalances now st).recon.reconciledAt = some now) := by
  unfold calculateBalances
  dsimp only
  split
  · next hc => exact ⟨⟨fun _ => hc.1, fun _ => rfl⟩, fun _ => rfl⟩
  · next hc =>
    constructor
    · constructor
      · intro habs
        rw [h] at habs
        exact Bool.noConfusion habs
      · intro hdiff
        exact absurd ⟨hdiff, h⟩ hc
    · intro habs
      rw [h] at habs
      exact Bool.noConfusion habs

theorem find?_replaceFirst (p : α → Bool) (g : α → α) (l : List α) (a : α)
    (h : l.find? p = some a) (hg : p (g a) = true) :
    (replaceFirst p g l).find? p = some (g a) := by
  induction l with
  | nil => simp at h
  | cons x xs ih =>
    by_cases hx : p x
    · rw [List.find?_cons_of_pos _ hx] at h
      obtain rfl : x = a := by simpa using h
      rw [replaceFirst, if_pos hx]
      exact List.find?_cons_of_pos _ hg
    · rw [List.find?_cons_of_neg _ (by simpa using hx)] at h
      rw [replaceFirst, if_neg hx]
      rw [List.find?_cons_of_neg _ (by simpa using hx)]
      exact ih h

theorem replaceFirst_comp (p : α → Bool) (g g' : α → α) (l : List α)
    (hp : ∀ a, p (g' a) = p a) :
    replaceFirst p g (replaceFirst p g' l) = replaceFirst p (fun a => g (g' a)) l := by
  induction l with
  | nil => rfl
  | cons x xs ih =>
    by_cases hx : p x
    · rw [replaceFirst, if_pos hx, replaceFirst, if_pos (by rw [hp x]; exact hx),
        replaceFirst, if_pos hx]
    · rw [replaceFirst, if_neg hx, replaceFirst, if_neg hx, replaceFirst, if_neg hx, ih]

theorem replaceFirst_id_of (p : α → Bool) (g : α → α) (l : List α)
    (hg : ∀ a, g a = a) : replaceFirst p g l = l := by
  induction l with
  | nil => rfl
  | cons x xs ih =>
    by_cases hx : p x
    · rw [replaceFirst, if_pos hx, hg x]
    · rw [replaceFirst, if_neg hx, ih]

theorem toggleItems_involutive (itemId : Nat) (l : List RecItem) :
    toggleItems itemId (toggleItems itemId l) = l := by
  unfold toggleItems
  rw [replaceFirst_comp (fun it : RecItem => it.id == itemId)
    (fun it => { it with cleared := !it.cleared })
    (fun it => { it with cleared := !it.cleared }) l (fun a => rfl)]
  exact replaceFirst_id_of _ _ l (fun a => by
    show { a with cleared := !(!a.cleared) } = a
    rw [Bool.not_not])

/-- Every successful toggle leaves the stored balances consistent with the
recomputation — together with `create_reconciliation` (which initializes
`book_balance = 0` over all-uncleared items), this is why every
reconciliation the API can exhibit satisfies `BalancesConsistent`. -/
theorem toggleItem_preserves_consistency {uid itemId now : Nat}
    {st st' : ReconState} (h : toggleItem uid itemId now st = .ok st') :
    BalancesConsistent st' := by
  obtain ⟨-, -, -, -, rfl⟩ := toggleItem_ok_inv h
  obtain ⟨hitems, htx, -, hstmt, hbook, hdiff⟩ :=
    calculateBalances_fields now { st with items := toggleItems itemId st.items }
  exact ⟨by rw [hbook, hitems, htx], by rw [hdiff, hbook, hstmt]⟩

/-! ### Claim C6 -/

/-- C6: from an open reconciliation, a successful item toggle closes the
reconciliation (`reconciled = true`, with the `now` timestamp) exactly when
the recomputed difference is zero — so driving the difference to zero is the
one and only automatic transition — and once the reconciliation is closed,
every further toggle by its owner is rejected with the closed-reconciliation
error and leaves the state unchanged. -/
theorem c6_reconciliation_closure (st : ReconState) (uid itemId now : Nat) :
    (st.recon.reconciled = false → ∀ st', toggleItem uid itemId now st = .ok st' →
      ((st'.recon.difference = 0 ↔ st'.recon.reconciled = true) ∧
       (st'.recon.reconciled = true → st'.recon.reconciledAt = some now))) ∧
    (st.recon.reconciled = true → st.recon.userId = uid →
      toggleItem uid itemId now st = .error .reconciliationClosed ∧
      applyToggle uid itemId now st = st) := by
  constructor
  · intro hopen st' h
    obtain ⟨-, -, item, hfind, rfl⟩ := toggleItem_ok_inv h
    obtain ⟨hiff, hts⟩ := calculateBalances_reconciled now
      { st with items := toggleItems itemId st.items } hopen
    obtain ⟨-, -, -, -, -, hdiff⟩ := calculateBalances_fields now
      { st with items := toggleItems itemId st.items }
    refine ⟨?_, hts⟩
    rw [hdiff]
    exact ⟨fun h0 => hiff.mpr h0, fun ht => hiff.mp ht⟩
  · intro hclosed huid
    have herr : toggleItem uid itemId now st = .error .reconciliationClosed := by
      unfold toggleItem
      rw [if_neg (not_ne_iff.mpr huid), if_pos hclosed]
    refine ⟨herr, ?_⟩
    unfold applyToggle
    rw [herr]

def c6Tx : Tx :=
  { id := 1
    userId := 1
    categoryId := none
    amount := 10000
    currency := "KES"
    exchangeRate := none
    description := "Salary"
    txType := .income
    date := ⟨2024, 5, 20⟩
    payee := none
    account := "checking"
    tags := none
    recurring := false
    recurringPeriod := none }

def c6State : ReconState :=
  { recon := ⟨1, 1, "checking", ⟨2024, 5, 31⟩, 10000, 0, 10000, false, none, ""⟩
    items := [⟨1, 1, false, ""⟩]
    transactions := [c6Tx] }

def c6Closed : ReconState :=
  { recon := ⟨1, 1, "checking", ⟨2024, 5, 31⟩, 10000, 10000, 0, true, some 5, ""⟩
    items := [⟨1, 1, true, ""⟩]
    transactions := [c6Tx] }

/-- Witness for C6: clearing the single 100.00 income item balances the
statement, auto-closing the reconciliation with the timestamp; a further
toggle is rejected and changes nothing. -/
theorem c6_reconciliation_closure_witness :
    c6Closed.recon.difference = 0 ∧
    c6Closed.recon.reconciled = true ∧
    c6Closed.recon.reconciledAt = some 5 ∧
    toggleItem 1 1 6 c6Closed = .error .reconciliationClosed ∧
    applyToggle 1 1 6 c6Closed = c6Closed := by
  have htog : toggleItem 1 1 5 c6State = .ok c6Closed := by decide
  have h1 := (c6_reconciliation_closure c6State 1 1 5).1 (by decide) c6Closed htog
  have h2 := (c6_reconciliation_closure c6Closed 1 1 6).2 (by decide) (by decide)
  exact ⟨by decide, h1.1.mp (by decide), h1.2 (h1.1.mp (by decide)), h2.1, h2.2⟩

/-! ### Claim C10 -/

/-- C10: on an open reconciliation with consistent stored balances, toggling
the same item twice in succession — the first toggle not driving the
difference to zero — restores the item table (hence the item's `cleared`
flag), the `book_balance` and the `difference` to their values before the
first toggle. -/
theorem c10_double_toggle (st : ReconState) (uid itemId now1 now2 : Nat)
    (hopen : st.recon.reconciled = false)
    (hcons : BalancesConsistent st)
    (st1 : ReconState)
    (h1 : toggleItem uid itemId now1 st = .ok st1)
    (hnz : st1.recon.difference ≠ 0) :
    ∃ st2, toggleItem uid itemId now2 st1 = .ok st2 ∧
      st2.items = st.items ∧
      st2.recon.bookBalance = st.recon.bookBalance ∧
      st2.recon.difference = st.recon.difference := by
  obtain ⟨huid, -, item, hfind, rfl⟩ := toggleItem_ok_inv h1
  obtain ⟨hitems1, htx1, huid1, hstmt1, hbook1, hdiff1⟩ :=
    calculateBalances_fields now1 { st with items := toggleItems itemId st.items }
  have hopen1 : (calculateBalances now1
      { st with items := toggleItems itemId st.items }).recon.reconciled = false := by
    rcases hb : (calculateBalances now1
        { st with items := toggleItems itemId st.items }).recon.reconciled with - | -
    · rfl
    · exfalso
      have hz := (calculateBalances_reconciled now1
        { st with items := toggleItems itemId st.items } hopen).1.mp hb
      exact hnz (by rw [hdiff1]; exact hz)
  have hfind1 : (calculateBalances now1
        { st with items := toggleItems itemId st.items }).items.find?
        (fun it => it.id == itemId) = some { item with cleared := !item.cleared } := by
    rw [hitems1]
    exact find?_replaceFirst _ _ st.items item hfind
      (by have h := List.find?_some hfind; exact h)
  have h2run : toggleItem uid itemId now2 (calculateBalances now1
      { st with items := toggleItems itemId st.items }) = .ok
      (calculateBalances now2
        { (calculateBalances now1 { st with items := toggleItems itemId st.items }) with
          items := toggleItems itemId (calculateBalances now1
            { st with items := toggleItems itemId st.items }).items }) := by
    unfold toggleItem
    rw [if_neg (not_ne_iff.mpr (by rw [huid1]; exact huid)),
      if_neg (by rw [hopen1]; exact Bool.noConfusion), hfind1]
  refine ⟨_, h2run, ?_, ?_, ?_⟩
  · obtain ⟨hitems2, -, -, -, -, -⟩ := calculateBalances_fields now2
      { (calculateBalances now1 { st with items := toggleItems itemId st.items }) with
        items := toggleItems itemId (calculateBalances now1
          { st with items := toggleItems itemId st.items }).items }
    rw [hitems2]
    show toggleItems itemId (calculateBalances now1
      { st with items := toggleItems itemId st.items }).items = st.items
    rw [hitems1]
    exact toggleItems_involutive itemId st.items
  · obtain ⟨-, -, -, -, hbook2, -⟩ := calculateBalances_fields now2
      { (calculateBalances now1 { st with items := toggleItems itemId st.items }) with
        items := toggleItems itemId (calculateBalances now1
          { st with items := toggleItems itemId st.items }).items }
    rw [hbook2]
    show clearedTotal (calculateBalances now1
        { st with items := toggleItems itemId st.items }).transactions
      (toggleItems itemId (calculateBalances now1
        { st with items := toggleItems itemId st.items }).items) = st.recon.bookBalance
    rw [htx1, hitems1, toggleItems_involutive itemId st.items]
    exact hcons.1.symm
  · obtain ⟨-, -, -, -, -, hdiff2⟩ := calculateBalances_fields now2
      { (calculateBalances now1 { st with items := toggleItems itemId st.items }) with
        items := toggleItems itemId (calculateBalances now1
          { st with items := toggleItems itemId st.items }).items }
    rw [hdiff2]
    show (calculateBalances now1
        { st with items := toggleItems itemId st.items }).recon.statementBalance -
      clearedTotal (calculateBalances now1
          { st with items := toggleItems itemId st.items }).transactions
        (toggleItems itemId (calculateBalances now1
          { st with items := toggleItems itemId st.items }).items) = st.recon.difference
    rw [hstmt1, htx1, hitems1, toggleItems_involutive itemId st.items, ← hcons.1]
    exact hcons.2.symm

def c10State : ReconState :=
  { recon := ⟨1, 1, "checking", ⟨2024, 5, 31⟩, 10000, 0, 10000, false, none, ""⟩
    items := [⟨1, 1, false, ""⟩, ⟨2, 2, false, ""⟩]
    transactions :=
      [{ c6Tx with id := 1, amount := 4000 }, { c6Tx with id := 2, amount := 6000 }] }

def c10After : ReconState :=
  { recon := ⟨1, 1, "checking", ⟨2024, 5, 31⟩, 10000, 4000, 6000, false, none, ""⟩
    items := [⟨1, 1, true, ""⟩, ⟨2, 2, false, ""⟩]
    transactions :=
      [{ c6Tx with id := 1, amount := 4000 }, { c6Tx with id := 2, amount := 6000 }] }

/-- Witness for C10: toggling item 1 (a 40.00 income) leaves a 60.00
difference — not zero — and toggling it again restores the items, the book
balance and the difference. -/
theorem c10_double_toggle_witness :
    ∃ st2, toggleItem 1 1 8 c10After = .ok st2 ∧
      st2.items = c10State.items ∧
      st2.recon.bookBalance = c10State.recon.bookBalance ∧
      st2.recon.difference = c10State.recon.difference :=
  c10_double_toggle c10State 1 1 7 8 (by decide) (by decide) c10After
    (by decide) (by decide)

/-! ### Claim C8 -/

theorem filter_eq_nil_of_all_false {α : Type} {p : α → Bool} {l : List α}
    (h : ∀ a ∈ l, p a = false) : l.filter p = [] := by
  induction l with
  | nil => rfl
  | cons x xs ih =>
    simp [List.filter_cons, h x (List.mem_cons_self x xs),
      ih (fun a ha => h a (List.mem_cons_of_mem x ha))]

theorem filter_eq_self_of_all_true {α : Type} {p : α → Bool} {l : List α}
    (h : ∀ a ∈ l, p a = true) : l.filter p = l := by
  induction l with
  | nil => rfl
  | cons x xs ih =>
    simp [List.filter_cons, h x (List.mem_cons_self x xs),
      ih (fun a ha => h a (List.mem_cons_of_mem x ha))]

/-- Unfolding of one step of the bulk loop: an item passes exactly when
`bulkItemValid` holds, a failing item contributes its 1-based index. -/
theorem bulkLoop_cons (uid : Nat) (today : Date) (nextId i : Nat)
    (it : BulkItem) (rest : List BulkItem) :
    bulkLoop uid today nextId i (it :: rest) =
      if bulkItemValid it then
        (mkTxFromBulk uid nextId it (it.amount.getD 0) (it.txType.getD .expense)
            today :: (bulkLoop uid today (nextId + 1) (i + 1) rest).1,
         (bulkLoop uid today (nextId + 1) (i + 1) rest).2)
      else
        ((bulkLoop uid today nextId (i + 1) rest).1,
         i :: (bulkLoop uid today nextId (i + 1) rest).2) := by
  obtain ⟨amt, desc, ty, cid, cur, dt, pay, acc, tg⟩ := it
  rcases amt with - | a <;> rcases ty with - | t
  · rfl
  · rfl
  · rfl
  · dsimp only [bulkLoop, bulkItemValid]
    by_cases hd : (decide ¬desc = "" && decide (0 < a)) = true
    · simp only [if_pos hd]
      rfl
    · simp only [if_neg hd]

/-- The bulk loop creates one row per valid item and reports one error index
per invalid item. -/
theorem bulkLoop_spec (uid : Nat) (today : Date) (items : List BulkItem) :
    ∀ nextId i,
      (bulkLoop uid today nextId i items).1.length =
        (items.filter bulkItemValid).length ∧
      (bulkLoop uid today nextId i items).2.length =
        (items.filter (fun it => !bulkItemValid it)).length := by
  induction items with
  | nil => exact fun _ _ => ⟨rfl, rfl⟩
  | cons it rest ih =>
    intro nextId i
    rw [bulkLoop_cons]
    by_cases hv : bulkItemValid it = true
    · have h1 := ih (nextId + 1) (i + 1)
      rw [if_pos hv]
      simp [List.filter_cons, hv, h1.1, h1.2]
    · have h1 := ih nextId (i + 1)
      rw [if_neg hv]
      simp only [Bool.not_eq_true] at hv
      simp [List.filter_cons, hv, h1.1, h1.2]

def c8Today : Date := ⟨2024, 5, 20⟩

def c8Cat : Category :=
  ⟨1, 1, "Food", 50000, 50000, "expense", "#007bff"⟩

def c8State : LedgerState :=
  { categories := [c8Cat], transactions := [], nextTxId := 1 }

def c8Item : BulkItem :=
  { amount := some 12000
    description := "Groceries"
    txType := some .expense
    categoryId := some 1
    currency := "KES"
    date := some ⟨2024, 5, 20⟩
    payee := ""
    account := "checking"
    tags := "" }

def c8Input : TxInput :=
  { amount := 12000
    description := "Groceries"
    txType := some .expense
    categoryId := some 1
    currency := "KES"
    date := some ⟨2024, 5, 20⟩
    payee := ""
    account := "checking"
    tags := ""
    recurring := false
    recurringPeriod := none }

/-- Counterexample to C8 as stated: the bulk endpoint builds exactly the same
row as single create for a valid 120.00 expense with a category, yet it
leaves the category's `available_amount` at 50000 where single create
decrements it to 38000 — bulk create does not apply the create semantics'
category balance update. -/
theorem c8_bulk_create_cex :
    Except.map (fun r => (r.1.categories.map Category.available, r.2.1, r.2.2))
        (bulkCreate 1 [c8Item] c8Today c8State) = .ok ([50000], 1, []) ∧
    Except.map (fun s => s.categories.map Category.available)
        (createTx 1 c8Input c8Today none c8State) = .ok [38000] ∧
    mkTxFromBulk 1 1 c8Item 12000 .expense c8Today =
      mkTxFromInput 1 1 c8Input .expense c8Today none := by
  exact ⟨by decide, by decide, by decide⟩

/-- C8 (amended): `create_bulk_transactions` enforces the 100-item cap,
rejects an all-invalid batch wholesale with no mutation, and on success
commits one row per valid item while reporting one error per invalid item —
but it never touches the category table, unlike single create. -/
theorem c8_bulk_semantics (uid : Nat) (items : List BulkItem) (today : Date)
    (s : LedgerState) :
    (items.length > 100 → bulkCreate uid items today s = .error .tooManyItems) ∧
    (items.length ≤ 100 →
      ((∀ it ∈ items, bulkItemValid it = false) → items ≠ [] →
        bulkCreate uid items today s = .error .allItemsInvalid) ∧
      (∀ s' n errs, bulkCreate uid items today s = .ok (s', n, errs) →
        s'.categories = s.categories ∧
        n = (items.filter bulkItemValid).length ∧
        s'.transactions.length = s.transactions.length + n ∧
        errs.length = (items.filter (fun it => !bulkItemValid it)).length)) := by
  constructor
  · intro hgt
    unfold bulkCreate
    rw [if_pos hgt]
  · intro hle
    have hnot : ¬items.length > 100 := Nat.not_lt.mpr hle
    constructor
    · intro hall hne
      rcases hbl : bulkLoop uid today s.nextTxId 1 items with ⟨C, E⟩
      have hs := bulkLoop_spec uid today items s.nextTxId 1
      rw [hbl] at hs
      have hClen : C.length = 0 := by
        rw [hs.1, filter_eq_nil_of_all_false hall]
        rfl
      have hCnil : C = [] := by
        cases C with
        | nil => rfl
        | cons c cs => simp at hClen
      have hElen : E.length = items.length := by
        rw [hs.2, filter_eq_self_of_all_true (fun a ha => by rw [hall a ha]; rfl)]
      have hEne : E ≠ [] := by
        intro hE
        apply hne
        cases items with
        | nil => rfl
        | cons x xs => rw [hE] at hElen; simp at hElen
      unfold bulkCreate
      rw [if_neg hnot, hbl]
      dsimp only
      rw [if_pos ⟨hEne, hCnil⟩]
    · intro s' n errs hok
      unfold bulkCreate at hok
      rw [if_neg hnot] at hok
      rcases hbl : bulkLoop uid today s.nextTxId 1 items with ⟨C, E⟩
      rw [hbl] at hok
      dsimp only at hok
      by_cases hcond : E ≠ [] ∧ C = []
      · rw [if_pos hcond] at hok
        exact absurd hok (by simp)
      · rw [if_neg hcond] at hok
        have hs := bulkLoop_spec uid today items s.nextTxId 1
        rw [hbl] at hs
        simp only [Except.ok.injEq, Prod.mk.injEq] at hok
        obtain ⟨rfl, rfl, rfl⟩ := hok
        refine ⟨rfl, hs.1, ?_, hs.2⟩
        exact List.length_append _ _

def c8BadItem : BulkItem :=
  { amount := none
    description := ""
    txType := none
    categoryId := none
    currency := "KES"
    date := none
    payee := ""
    account := "checking"
    tags := "" }

def c8OkState : LedgerState :=
  { categories := [c8Cat]
    transactions := [mkTxFromBulk 1 1 c8Item 12000 .expense c8Today]
    nextTxId := 2 }

/-- Witness for C8 (amended): a batch of two invalid items is rejected
wholesale; a mixed batch (one valid expense, one invalid) succeeds with one
created row, one reported error index, and an unchanged category table. -/
theorem c8_bulk_semantics_witness :
    bulkCreate 1 [c8BadItem, c8BadItem] c8Today c8State =
      .error .allItemsInvalid ∧
    c8OkState.categories = c8State.categories ∧
    1 = ([c8Item, c8BadItem].filter bulkItemValid).length ∧
    c8OkState.transactions.length = c8State.transactions.length + 1 ∧
    ([2] : List Nat).length =
      ([c8Item, c8BadItem].filter (fun it => !bulkItemValid it)).length := by
  have h1 := ((c8_bulk_semantics 1 [c8BadItem, c8BadItem] c8Today c8State).2
    (by decide)).1 (by decide) (by decide)
  have h2 := ((c8_bulk_semantics 1 [c8Item, c8BadItem] c8Today c8State).2
    (by decide)).2 c8OkState 1 [2] (by decide)
  exact ⟨h1, h2.1, h2.2.1, h2.2.2.1, h2.2.2.2⟩

end PFT
